import Mathlib

/-!
Shallow embedding of the schema-augmentation engine (`src/augment.js`) of the
neo4j-graphql-js repository, together with theorems settling the frozen claims
about it.

Modelling conventions:
* GraphQL AST nodes are embedded as inductive types.  A JS `TypeMap` (an
  insertion-ordered, string-keyed object of AST nodes) is an association list
  `List (String × TypeDef)`; keys are unique in every map produced by the
  GraphQL parser, and all operations below use first-match lookup and
  in-place update, which agrees with JS object semantics on unique-keyed maps.
* The source frequently builds new definitions by interpolating SDL text and
  re-parsing it (`parse(...)`).  `parse` returns a *Document* node wrapping the
  definition, and the source stores that document directly in the type map; the
  embedding keeps this behaviour with the `TypeDef.doc` wrapper and constructs
  the AST the parse would produce directly.
* Thrown JS exceptions (explicit `throw new Error`, `TypeError` from property
  access on `undefined`, `ReferenceError` from unbound identifiers) are
  embedded as `Except JsError`.
* External collaborators that are not part of the supplied source (the helpers
  of `./utils` and the auth hook) are modelled from the spec; each such
  definition carries a doc comment starting with `Modelled from the spec:`.
-/

namespace NeoAugment

/-- A GraphQL type reference: a named leaf, a list wrapper or a non-null wrapper. -/
inductive GqlType where
  | named (name : String)
  | list (t : GqlType)
  | nonNull (t : GqlType)
  deriving Repr, DecidableEq

/-- An argument of a directive: name and (string) value.  The engine only ever
reads `.value.value` of directive arguments, so string and enum values are
represented uniformly by their payload string. -/
structure DirArg where
  name : String
  value : String
  deriving Repr, DecidableEq

/-- A directive occurrence `@name(args)`. -/
structure Directive where
  name : String
  args : List DirArg
  deriving Repr, DecidableEq

/-- An InputValueDefinition node (an argument of a field, or a field of an
input object type). -/
structure InputValue where
  name : String
  type : GqlType
  deriving Repr, DecidableEq

/-- A FieldDefinition node. -/
structure FieldDef where
  name : String
  arguments : List InputValue
  type : GqlType
  directives : List Directive
  deriving Repr, DecidableEq

/-- A type-map entry: a parsed type definition, a directive definition, or a
Document node wrapping a definition (the result of `parse` on generated SDL,
which the source stores in the map without unwrapping). -/
inductive TypeDef where
  | obj (name : String) (directives : List Directive) (fields : List FieldDef)
  | interfaceDef (name : String) (directives : List Directive) (fields : List FieldDef)
  | inputObj (name : String) (fields : List InputValue)
  | enumDef (name : String) (values : List String)
  | scalarDef (name : String)
  | directiveDef (name : String)
  | doc (td : TypeDef)
  deriving Repr, DecidableEq

/-- A JS exception raised while augmenting. -/
inductive JsError where
  /-- "Relationship type X has a 'to' field but no corresponding 'from' field". -/
  | toFieldWithoutFrom (typeName : String)
  /-- "Relationship type X has a 'from' field but no corresponding 'to' field". -/
  | fromFieldWithoutTo (typeName : String)
  /-- ReferenceError: the given identifier is not defined. -/
  | referenceError (ident : String)
  /-- TypeError from a property access on `undefined`. -/
  | typeError (msg : String)
  /-- "No name argument specified on @relation directive". -/
  | missingRelationName
  deriving Repr, DecidableEq

/-- The type map: an insertion-ordered association list from type name to
definition, embedding the JS string-keyed object. -/
abbrev TypeMap := List (String × TypeDef)

/-- The resolver map is threaded through the source but never influences the
resulting type map (the only use, in `fieldIsNotIgnored`, is commented out in
the source), so it is embedded as an opaque placeholder value. -/
abbrev Resolvers := Unit

/-- Per-operation generation policy: `config.query` / `config.mutation` is
either a boolean or an object carrying an exclusion set (normalized to a
name-keyed set by `excludeIgnoredTypes`).  A missing entry behaves like an
empty exclusion set. -/
inductive OpPolicy where
  | bool (b : Bool)
  | exclude (names : List String)
  deriving Repr, DecidableEq

/-- The `temporal` configuration option as provided by the caller: absent, a
single boolean, or a per-kind map of optional booleans. -/
inductive TemporalSetting where
  | missing
  | bool (b : Bool)
  | object (time date datetime localtime localdatetime : Option Bool)
  deriving Repr, DecidableEq

/-- The resolved per-kind temporal flags computed by `decideTemporalConfig`. -/
structure TemporalFlags where
  time : Bool
  date : Bool
  datetime : Bool
  localtime : Bool
  localdatetime : Bool
  deriving Repr, DecidableEq

/-- The configuration object read by every generation decision. -/
structure Config where
  query : OpPolicy
  mutation : OpPolicy
  temporal : TemporalSetting
  deriving Repr, DecidableEq

/-- The root operation type names fixed at the top of `augmentTypeMap`. -/
structure RootTypes where
  query : String
  mutation : String
  deriving Repr, DecidableEq

/-- First-match lookup in a type map (JS `typeMap[name]`). -/
def lookupType (tm : TypeMap) (name : String) : Option TypeDef :=
  match tm with
  | [] => none
  | (k, v) :: rest => if k = name then some v else lookupType rest name

/-- JS `typeMap[name] = value`: update in place when the key exists (keeping
its position), otherwise append. -/
def setKey (tm : TypeMap) (name : String) (v : TypeDef) : TypeMap :=
  match tm with
  | [] => [(name, v)]
  | (k, w) :: rest => if k = name then (k, v) :: rest else (k, w) :: setKey rest name v

/-- The keys of a type map in insertion order (JS `Object.keys`). -/
def keysOf (tm : TypeMap) : List String := tm.map (·.1)

/-- The name carried by a definition node; a Document node has none. -/
def tdNameOpt : TypeDef → Option String
  | .obj n _ _ => some n
  | .interfaceDef n _ _ => some n
  | .inputObj n _ => some n
  | .enumDef n _ => some n
  | .scalarDef n => some n
  | .directiveDef n => some n
  | .doc _ => none

/-- JS `astNode.name.value`: reading the name of a node that has none (a
Document) throws a TypeError (`.value` of `undefined`). -/
def tdNameE (td : TypeDef) : Except JsError String :=
  match tdNameOpt td with
  | some n => .ok n
  | none => .error (.typeError "Cannot read name of node without a name")

/-- Total name accessor used only under guards that already ensure the node
has a name. -/
def tdName (td : TypeDef) : String := (tdNameOpt td).getD ""

/-- The `kind` string of a node, as compared against by the source. -/
def kindOf : TypeDef → String
  | .obj _ _ _ => "ObjectTypeDefinition"
  | .interfaceDef _ _ _ => "InterfaceTypeDefinition"
  | .inputObj _ _ => "InputObjectTypeDefinition"
  | .enumDef _ _ => "EnumTypeDefinition"
  | .scalarDef _ => "ScalarTypeDefinition"
  | .directiveDef _ => "DirectiveDefinition"
  | .doc _ => "Document"

/-- The field list of a node, when it has one (JS `astNode.fields`). -/
def fieldsOf : TypeDef → Option (List FieldDef)
  | .obj _ _ fs => some fs
  | .interfaceDef _ _ fs => some fs
  | _ => none

/-- The directive list of a node, when it has one (JS `astNode.directives`). -/
def directivesOf : TypeDef → Option (List Directive)
  | .obj _ ds _ => some ds
  | .interfaceDef _ ds _ => some ds
  | _ => none

/-- Replace the field list of an object or interface node. -/
def withFields (td : TypeDef) (fs : List FieldDef) : TypeDef :=
  match td with
  | .obj n ds _ => .obj n ds fs
  | .interfaceDef n ds _ => .interfaceDef n ds fs
  | other => other

/-- Replace the directive list of an object or interface node. -/
def withDirectives (td : TypeDef) (ds : List Directive) : TypeDef :=
  match td with
  | .obj n _ fs => .obj n ds fs
  | .interfaceDef n _ fs => .interfaceDef n ds fs
  | other => other

/-- Modelled from the spec: `_getNamedType` of the external utils unwraps
list/non-null wrapper layers down to the named leaf type. -/
def leafName : GqlType → String
  | .named n => n
  | .list t => leafName t
  | .nonNull t => leafName t

/-- Modelled from the spec: `_isListType` of the external utils reports whether
any wrapper layer of the type is a list layer. -/
def typeHasList : GqlType → Bool
  | .named _ => false
  | .list _ => true
  | .nonNull t => typeHasList t

/-- `_isListType` applied to a FieldDefinition node (the source passes the
field node itself; the walk starts at its `.type`). -/
def isListField (f : FieldDef) : Bool := typeHasList f.type

/-- Modelled from the spec: `isNonNullType` of the external utils reports
whether the outermost wrapper of the field's type is non-null (a required
field). -/
def isNonNullField (f : FieldDef) : Bool :=
  match f.type with
  | .nonNull _ => true
  | _ => false

/-- Modelled from the spec: `isBasicScalar` of the external utils recognizes
the built-in scalar names. -/
def isBasicScalar (name : String) : Bool :=
  name = "ID" || name = "String" || name = "Int" || name = "Float" || name = "Boolean"

/-- Modelled from the spec: `isTemporalType` of the external utils recognizes
the five structured temporal output type names injected by the engine. -/
def isTemporalType (name : String) : Bool :=
  name = "_Neo4jTime" || name = "_Neo4jDate" || name = "_Neo4jDateTime" ||
  name = "_Neo4jLocalTime" || name = "_Neo4jLocalDateTime"

/-- Modelled from the spec: `isKind` of the external utils compares the node's
`kind` against the given kind string, guarding against a missing node. -/
def isKind (td : Option TypeDef) (kind : String) : Bool :=
  match td with
  | some t => kindOf t = kind
  | none => false

/-- Modelled from the spec: `getTypeDirective` of the external utils finds a
type-level directive by name, guarding against nodes without directives. -/
def getTypeDirective (td : Option TypeDef) (name : String) : Option Directive :=
  match td with
  | some t =>
    match directivesOf t with
    | some ds => ds.find? (·.name = name)
    | none => none
  | none => none

/-- Modelled from the spec: `getFieldDirective` of the external utils finds a
field-level directive by name. -/
def getFieldDirective (field : FieldDef) (name : String) : Option Directive :=
  field.directives.find? (·.name = name)

/-- Modelled from the spec: a node type is an object type that is not the
synthetic root query/mutation container and not a relationship type (no
`relation` type directive and no `from`/`to` fields). -/
def isNodeType (td : Option TypeDef) : Bool :=
  match td with
  | some (.obj name dirs fields) =>
    name ≠ "Query" && name ≠ "Mutation" &&
    (getTypeDirective (some (.obj name dirs fields)) "relation").isNone &&
    !(fields.any (·.name = "from")) && !(fields.any (·.name = "to"))
  | _ => false

/-- `fieldIsNotIgnored` (source): a field is skipped by generation when it
carries the `neo4j_ignore` marker directive; the resolver-based inference is
commented out in the source. -/
def fieldIsNotIgnored (_astNode : TypeDef) (field : FieldDef) (_resolvers : Resolvers) : Bool :=
  (getFieldDirective field "neo4j_ignore").isNone

/-- `isNotSystemField` (source): `_id`, `to` and `from` are reserved. -/
def isNotSystemField (name : String) : Bool :=
  name ≠ "_id" && name ≠ "to" && name ≠ "from"

/-- The exclusion set carried by a policy (`getExcludedTypes` of the external
utils, modelled from the spec: a boolean policy has no exclusion set). -/
def excludedOf : OpPolicy → List String
  | .bool _ => []
  | .exclude ns => ns

/-- The policy stored under the given root-operation key of the config. -/
def policyOf (config : Config) (rootType : String) : OpPolicy :=
  if rootType = "query" then config.query
  else if rootType = "mutation" then config.mutation
  else .exclude []

/-- `shouldAugmentType` (source): a boolean policy applies globally; otherwise
a type is augmented unless its name is in the exclusion set (an empty name is
falsy in JS and is never augmented). -/
def shouldAugmentType (config : Config) (rootType : String) (typeName : String) : Bool :=
  match policyOf config rootType with
  | .bool b => b
  | .exclude ns => if typeName = "" then false else !(ns.contains typeName)

/-- `shouldAugmentRelationField` (source): both endpoints must be augmentable. -/
def shouldAugmentRelationField (config : Config) (rootType : String)
    (fromName toName : String) : Bool :=
  shouldAugmentType config rootType fromName && shouldAugmentType config rootType toName

/-- Modelled from the spec: `excludeIgnoredTypes` of the external utils extends
each non-boolean per-operation exclusion set with every type carrying the
`neo4j_ignore` marker directive; boolean policies pass through unchanged. -/
def excludeIgnoredTypes (tm : TypeMap) (config : Config) : Config :=
  let ignored := tm.filterMap fun p =>
    if (getTypeDirective (some p.2) "neo4j_ignore").isSome then tdNameOpt p.2 else none
  let extend : OpPolicy → OpPolicy
    | .bool b => .bool b
    | .exclude ns => .exclude (ns ++ ignored)
  { config with query := extend config.query, mutation := extend config.mutation }

/-- Modelled from the spec: `getPrimaryKey` of the external utils infers the
primary key as the first required, non-list, ID-typed field; a type with no
such field has no primary key. -/
def getPrimaryKey (astNode : TypeDef) : Option FieldDef :=
  ((fieldsOf astNode).getD []).find? fun f =>
    isNonNullField f && !isListField f && leafName f.type = "ID"

/-- Modelled from the spec: `createOperationMap` of the external utils keys the
fields of an operation type by field name (absent type: empty map).  Later
fields with a repeated name overwrite the stored field but keep the first
occurrence's position, as JS object assignment does. -/
def opInsert (m : List (String × FieldDef)) (k : String) (v : FieldDef) :
    List (String × FieldDef) :=
  if m.any (·.1 = k) then m.map (fun p => if p.1 = k then (k, v) else p) else m ++ [(k, v)]

/-- Modelled from the spec: see `opInsert`. -/
def createOperationMap (td : Option TypeDef) : List (String × FieldDef) :=
  match td with
  | some t => ((fieldsOf t).getD []).foldl (fun acc f => opInsert acc f.name f) []
  | none => []

/-- First-match lookup in an operation map. -/
def opLookup (m : List (String × FieldDef)) (k : String) : Option FieldDef :=
  match m with
  | [] => none
  | (k', v) :: rest => if k' = k then some v else opLookup rest k

/-- Modelled from the spec: the auth policy hook (`possiblyAddScopeDirective`
of the external auth module) returns directive nodes to attach to a generated
field, or nothing when no auth configuration is present.  This embedding
carries no auth configuration, so the hook returns nothing; a JS `undefined`
entry inside a directives array is invisible to the guarded directive finders
and is dropped at construction time here. -/
def possiblyAddScopeDirective (_entityType _operationType _typeName : String)
    (_relatedTypeName : Option String) (_config : Config) : Option Directive :=
  none

/-- JS `typeMap[key].fields.push(field)`: appending a field to the operation
type stored under `key`; a missing entry or an entry without a field list
throws a TypeError. -/
def pushFieldOnKey (tm : TypeMap) (key : String) (field : FieldDef) :
    Except JsError TypeMap :=
  match lookupType tm key with
  | none => .error (.typeError "Cannot read fields of undefined")
  | some td =>
    match fieldsOf td with
    | none => .error (.typeError "Cannot push onto fields of node without fields")
    | some fs => .ok (setKey tm key (withFields td (fs ++ [field])))

/-- `possiblyAddArgument` (source): append a named-type argument unless an
argument of that name is already present. -/
def possiblyAddArgument (args : List InputValue) (fieldName fieldType : String) :
    List InputValue :=
  if args.findIdx? (·.name = fieldName) = none then
    args ++ [⟨fieldName, .named fieldType⟩]
  else args

/-- `possiblyAddOrderingArgument` (source): append the `orderBy` argument of
type `[_<name>Ordering]`.  Note the source's existence check looks for an
argument named after the value type (`fieldName`), not for one named
`orderBy`. -/
def possiblyAddOrderingArgument (args : List InputValue) (fieldName : String) :
    List InputValue :=
  let orderingType := "_" ++ fieldName ++ "Ordering"
  if args.findIdx? (·.name = fieldName) = none then
    args ++ [⟨"orderBy", .list (.named orderingType)⟩]
  else args

/-- `decideTemporalConfig` (source): resolve the caller's `temporal` option to
per-kind flags; everything defaults to enabled, a boolean `false` disables all
five kinds, and an object fills each missing kind with the default. -/
def decideTemporalConfig (config : Config) : TemporalFlags :=
  match config.temporal with
  | .missing => ⟨true, true, true, true, true⟩
  | .bool b => if b then ⟨true, true, true, true, true⟩ else ⟨false, false, false, false, false⟩
  | .object t d dt lt ldt => ⟨t.getD true, d.getD true, dt.getD true, lt.getD true, ldt.getD true⟩

/-- Shorthand for an argument-less, directive-less field of a named type. -/
def mkF (name ty : String) : FieldDef := ⟨name, [], .named ty, []⟩

/-- Shorthand for an input value of a named type. -/
def mkIV (name ty : String) : InputValue := ⟨name, .named ty⟩

/-- `temporalTypes` (source): define the structured temporal type and its input
twin for each enabled kind (the source stores `parse(...).definitions[0]`, a
plain definition node, and overwrites any existing entry of the same name). -/
def temporalTypes (tm : TypeMap) (types : TemporalFlags) : TypeMap :=
  let tm := if types.time then
    setKey (setKey tm "_Neo4jTime"
      (.obj "_Neo4jTime" [] [mkF "hour" "Int", mkF "minute" "Int", mkF "second" "Int",
        mkF "millisecond" "Int", mkF "microsecond" "Int", mkF "nanosecond" "Int",
        mkF "timezone" "String", mkF "formatted" "String"]))
      "_Neo4jTimeInput"
      (.inputObj "_Neo4jTimeInput" [mkIV "hour" "Int", mkIV "minute" "Int", mkIV "second" "Int",
        mkIV "nanosecond" "Int", mkIV "millisecond" "Int", mkIV "microsecond" "Int",
        mkIV "timezone" "String", mkIV "formatted" "String"])
    else tm
  let tm := if types.date then
    setKey (setKey tm "_Neo4jDate"
      (.obj "_Neo4jDate" [] [mkF "year" "Int", mkF "month" "Int", mkF "day" "Int",
        mkF "formatted" "String"]))
      "_Neo4jDateInput"
      (.inputObj "_Neo4jDateInput" [mkIV "year" "Int", mkIV "month" "Int", mkIV "day" "Int",
        mkIV "formatted" "String"])
    else tm
  let tm := if types.datetime then
    setKey (setKey tm "_Neo4jDateTime"
      (.obj "_Neo4jDateTime" [] [mkF "year" "Int", mkF "month" "Int", mkF "day" "Int",
        mkF "hour" "Int", mkF "minute" "Int", mkF "second" "Int", mkF "millisecond" "Int",
        mkF "microsecond" "Int", mkF "nanosecond" "Int", mkF "timezone" "String",
        mkF "formatted" "String"]))
      "_Neo4jDateTimeInput"
      (.inputObj "_Neo4jDateTimeInput" [mkIV "year" "Int", mkIV "month" "Int", mkIV "day" "Int",
        mkIV "hour" "Int", mkIV "minute" "Int", mkIV "second" "Int", mkIV "millisecond" "Int",
        mkIV "microsecond" "Int", mkIV "nanosecond" "Int", mkIV "timezone" "String",
        mkIV "formatted" "String"])
    else tm
  let tm := if types.localtime then
    setKey (setKey tm "_Neo4jLocalTime"
      (.obj "_Neo4jLocalTime" [] [mkF "hour" "Int", mkF "minute" "Int", mkF "second" "Int",
        mkF "millisecond" "Int", mkF "microsecond" "Int", mkF "nanosecond" "Int",
        mkF "formatted" "String"]))
      "_Neo4jLocalTimeInput"
      (.inputObj "_Neo4jLocalTimeInput" [mkIV "hour" "Int", mkIV "minute" "Int",
        mkIV "second" "Int", mkIV "millisecond" "Int", mkIV "microsecond" "Int",
        mkIV "nanosecond" "Int", mkIV "formatted" "String"])
    else tm
  let tm := if types.localdatetime then
    setKey (setKey tm "_Neo4jLocalDateTime"
      (.obj "_Neo4jLocalDateTime" [] [mkF "year" "Int", mkF "month" "Int", mkF "day" "Int",
        mkF "hour" "Int", mkF "minute" "Int", mkF "second" "Int", mkF "millisecond" "Int",
        mkF "microsecond" "Int", mkF "nanosecond" "Int", mkF "formatted" "String"]))
      "_Neo4jLocalDateTimeInput"
      (.inputObj "_Neo4jLocalDateTimeInput" [mkIV "year" "Int", mkIV "month" "Int",
        mkIV "day" "Int", mkIV "hour" "Int", mkIV "minute" "Int", mkIV "second" "Int",
        mkIV "millisecond" "Int", mkIV "microsecond" "Int", mkIV "nanosecond" "Int",
        mkIV "formatted" "String"])
    else tm
  tm

/-- `transformTemporalTypeName` (source): rewrite an enabled well-known
temporal leaf name to the structured output type, or to its input twin when
`isArgument` is set.  The source's recursive call through a wrapper layer
passes only `(type.type, config)`, dropping the `isArgument` flag, which this
embedding reproduces by recursing with `false`. -/
def transformTemporalTypeName (t : GqlType) (config : TemporalFlags) (isArgument : Bool) :
    GqlType :=
  match t with
  | .list inner => .list (transformTemporalTypeName inner config false)
  | .nonNull inner => .nonNull (transformTemporalTypeName inner config false)
  | .named n =>
    if n = "Time" then
      if config.time then .named ("_Neo4jTime" ++ if isArgument then "Input" else "") else .named n
    else if n = "Date" then
      if config.date then .named ("_Neo4jDate" ++ if isArgument then "Input" else "") else .named n
    else if n = "DateTime" then
      if config.datetime then .named ("_Neo4jDateTime" ++ if isArgument then "Input" else "")
      else .named n
    else if n = "LocalTime" then
      if config.localtime then .named ("_Neo4jLocalTime" ++ if isArgument then "Input" else "")
      else .named n
    else if n = "LocalDateTime" then
      if config.localdatetime then
        .named ("_Neo4jLocalDateTime" ++ if isArgument then "Input" else "")
      else .named n
    else .named n

/-- `transformTemporalFieldArgs` (source): rewrite every argument type of the
field in input position. -/
def transformTemporalFieldArgs (field : FieldDef) (config : TemporalFlags) : FieldDef :=
  { field with arguments :=
      field.arguments.map fun arg => { arg with type := transformTemporalTypeName arg.type config true } }

/-- `transformTemporalFields` (source): rewrite the field types (output
position) and argument types (input position) of every object type in the map
other than the injected temporal types themselves. -/
def transformTemporalFields (tm : TypeMap) (config : TemporalFlags) : TypeMap :=
  tm.map fun p =>
    if kindOf p.2 = "ObjectTypeDefinition" && !isTemporalType p.1 then
      match p.2 with
      | .obj n ds fs =>
        (p.1, .obj n ds (fs.map fun field =>
          transformTemporalFieldArgs
            { field with type := transformTemporalTypeName field.type config false } config))
      | other => (p.1, other)
    else p

/-- `addTemporalTypes` (source). -/
def addTemporalTypes (tm : TypeMap) (config : Config) : TypeMap :=
  let flags := decideTemporalConfig config
  let tm := temporalTypes tm flags
  transformTemporalFields tm flags

/-- `decideFieldType` (source): a temporal type name used in input position is
replaced by its input twin. -/
def decideFieldType (name : String) : String :=
  if isTemporalType name then name ++ "Input" else name

/-- Character-list prefix test (used to embed the JS substring operations). -/
def charListIsPrefix : List Char → List Char → Bool
  | [], _ => true
  | _ :: _, [] => false
  | p :: ps, c :: cs => p = c && charListIsPrefix ps cs

/-- Character-list substring test. -/
def charListContains : List Char → List Char → Bool
  | s, pat =>
    charListIsPrefix pat s ||
    match s with
    | [] => false
    | _ :: rest => charListContains rest pat

/-- Replace the first occurrence of `pat` (embedding the JS single-argument
`String.replace`, which replaces only the first occurrence). -/
def charListReplaceFirst : List Char → List Char → List Char → List Char
  | [], _, _ => []
  | c :: rest, pat, rep =>
    if charListIsPrefix pat (c :: rest) then rep ++ (c :: rest).drop pat.length
    else c :: charListReplaceFirst rest pat rep

/-- Substring test used to embed the JS `String.includes` calls of
`transformManagedFieldTypes`. -/
def strContains (s pat : String) : Bool := charListContains s.data pat.data

/-- First-occurrence string replacement (JS `String.replace` with a string
pattern). -/
def strReplaceFirst (s pat rep : String) : String :=
  ⟨charListReplaceFirst s.data pat.data rep.data⟩

/-- `transformManagedFieldTypes` (source) applied to one leaf type name.  The
source operates on the printed SDL string of each argument definition with a
first-occurrence string replace; on the structured representation the managed
temporal names occur exactly once, in the leaf type position, so the rewrite
is applied to the leaf name.  The source's whole-string comparisons against
the bare input type names never match a printed definition, so they impose no
additional guard. -/
def transformManagedLeaf (n : String) : String :=
  if strContains n "_Neo4jDateTime" then strReplaceFirst n "_Neo4jDateTime" "_Neo4jDateTimeInput"
  else if strContains n "_Neo4jDate" then strReplaceFirst n "_Neo4jDate" "_Neo4jDateInput"
  else if strContains n "_Neo4jTime" then strReplaceFirst n "_Neo4jTime" "_Neo4jTimeInput"
  else if strContains n "_Neo4jLocalTime" then
    strReplaceFirst n "_Neo4jLocalTime" "_Neo4jLocalTimeInput"
  else if strContains n "_Neo4jLocalDateTime" then
    strReplaceFirst n "_Neo4jLocalDateTime" "_Neo4jLocalDateTimeInput"
  else n

/-- Rewrite the leaf name of a type through `transformManagedLeaf`. -/
def transformManagedType : GqlType → GqlType
  | .named n => .named (transformManagedLeaf n)
  | .list t => .list (transformManagedType t)
  | .nonNull t => .nonNull (transformManagedType t)

/-- `transformManagedFieldTypes` (source): see `transformManagedLeaf`. -/
def transformManagedFieldTypes (fields : List InputValue) : List InputValue :=
  fields.map fun iv => { iv with type := transformManagedType iv.type }

/-- Modelled from the spec: `buildInputValueDefinitions` of the external utils
re-parses the printed argument definitions back into InputValueDefinition
nodes; on the structured representation this is the identity. -/
def buildInputValueDefinitions (fields : List InputValue) : List InputValue := fields

/-- `createQueryArguments` (source): one argument per scalar/enum/temporal
field, with wrapper layers stripped (the argument type is the named leaf) and
temporal names replaced by their input twin. -/
def createQueryArguments (astNode : TypeDef) (resolvers : Resolvers) (tm : TypeMap) :
    List InputValue :=
  ((fieldsOf astNode).getD []).foldl (fun acc t =>
    if fieldIsNotIgnored astNode t resolvers then
      let valueTypeName := leafName t.type
      let valueKind := (lookupType tm valueTypeName).map kindOf
      if isBasicScalar valueTypeName ||
         valueKind = some "EnumTypeDefinition" ||
         valueKind = some "ScalarTypeDefinition" then
        acc ++ [⟨t.name, .named valueTypeName⟩]
      else if isTemporalType valueTypeName then
        acc ++ [⟨t.name, .named (valueTypeName ++ "Input")⟩]
      else acc
    else acc) []

/-- `createOrderingFields` (source): an ascending/descending enum value pair
for every non-list scalar, enum or temporal field. -/
def createOrderingFields (astNode : TypeDef) (tm : TypeMap) (resolvers : Resolvers) :
    List String :=
  ((fieldsOf astNode).getD []).foldl (fun acc field =>
    let valueTypeName := leafName field.type
    if !isListField field && fieldIsNotIgnored astNode field resolvers &&
       (isBasicScalar valueTypeName ||
        isKind (lookupType tm valueTypeName) "EnumTypeDefinition" ||
        isTemporalType valueTypeName) then
      acc ++ [field.name ++ "_asc", field.name ++ "_desc"]
    else acc) []

/-- `addOrReplaceNodeIdField` (source): inject the reserved string-typed `_id`
field, replacing a non-ignored pre-existing field of that name. -/
def addOrReplaceNodeIdField (astNode : TypeDef) (resolvers : Resolvers) : List FieldDef :=
  let fields := (fieldsOf astNode).getD []
  let definition : FieldDef := ⟨"_id", [], .named "String", []⟩
  match fields.findIdx? (·.name = "_id") with
  | some i =>
    if fieldIsNotIgnored astNode (fields.getD i definition) resolvers then
      fields.set i definition
    else fields
  | none => fields ++ [definition]

/-- `possiblyAddTypeFieldArguments` (source): add pagination/ordering/filter
arguments to relation- or cypher-directive fields whose value is a
non-excluded node type. -/
def possiblyAddTypeFieldArguments (astNode : TypeDef) (tm : TypeMap)
    (resolvers : Resolvers) (config : Config) (_queryType : String) : List FieldDef :=
  ((fieldsOf astNode).getD []).map fun field =>
    let relationTypeName := leafName field.type
    let relationType := lookupType tm relationTypeName
    if fieldIsNotIgnored astNode field resolvers &&
       shouldAugmentType config "query" relationTypeName &&
       isNodeType relationType &&
       ((getFieldDirective field "relation").isSome ||
        (getFieldDirective field "cypher").isSome) then
      let args := if isListField field then
          possiblyAddOrderingArgument
            (possiblyAddArgument (possiblyAddArgument field.arguments "first" "Int")
              "offset" "Int") relationTypeName
        else field.arguments
      let args := if (getFieldDirective field "cypher").isNone then
          possiblyAddArgument args "filter" ("_" ++ relationTypeName ++ "Filter")
        else args
      { field with arguments := args }
    else field

/-- `augmentType` (source): inject `_id` (when the query API is generated for
the type) and augment the arguments of relation/cypher fields of node types. -/
def augmentType (astNode : TypeDef) (tm : TypeMap) (resolvers : Resolvers)
    (rootTypes : RootTypes) (config : Config) : TypeDef :=
  if isNodeType (some astNode) then
    let astNode :=
      if shouldAugmentType config "query" (tdName astNode) then
        withFields astNode (addOrReplaceNodeIdField astNode resolvers)
      else astNode
    withFields astNode (possiblyAddTypeFieldArguments astNode tm resolvers config rootTypes.query)
  else astNode

/-- `possiblyAddQuery` (source): ensure a root query field of the node type's
name, returning a list of the type, unless excluded by policy or already
present. -/
def possiblyAddQuery (astNode : TypeDef) (tm : TypeMap) (resolvers : Resolvers)
    (rootTypes : RootTypes) (config : Config) : Except JsError TypeMap := do
  let typeName ← tdNameE astNode
  let queryType := rootTypes.query
  let queryMap := createOperationMap (lookupType tm queryType)
  if isNodeType (some astNode) && shouldAugmentType config "query" typeName then
    let authDirectives := possiblyAddScopeDirective "node" "Read" typeName none config
    if opLookup queryMap typeName = none then
      pushFieldOnKey tm queryType
        ⟨typeName, createQueryArguments astNode resolvers tm,
          .list (.named typeName), authDirectives.toList⟩
    else pure tm
  else pure tm

/-- `buildFilterFields` (source): the comparison-operator input fields of the
generated filter type, with the recursive `AND`/`OR` combinators prepended. -/
def buildFilterFields (filterType : String) (astNode : TypeDef) (tm : TypeMap)
    (resolvers : Resolvers) (config : Config) : List InputValue :=
  let fields := (fieldsOf astNode).getD []
  let filterFields := fields.foldl (fun acc t =>
    let fieldName := t.name
    let valueTypeName := leafName t.type
    let isList := isListField t
    let valueType := lookupType tm valueTypeName
    if fieldIsNotIgnored astNode t resolvers && isNotSystemField fieldName &&
       (getFieldDirective t "cypher").isNone then
      if !isList then
        if valueTypeName = "ID" || valueTypeName = "String" then
          acc ++ [⟨fieldName, .named valueTypeName⟩,
            ⟨fieldName ++ "_not", .named valueTypeName⟩,
            ⟨fieldName ++ "_in", .list (.nonNull (.named valueTypeName))⟩,
            ⟨fieldName ++ "_not_in", .list (.nonNull (.named valueTypeName))⟩,
            ⟨fieldName ++ "_contains", .named valueTypeName⟩,
            ⟨fieldName ++ "_not_contains", .named valueTypeName⟩,
            ⟨fieldName ++ "_starts_with", .named valueTypeName⟩,
            ⟨fieldName ++ "_not_starts_with", .named valueTypeName⟩,
            ⟨fieldName ++ "_ends_with", .named valueTypeName⟩,
            ⟨fieldName ++ "_not_ends_with", .named valueTypeName⟩]
        else if valueTypeName = "Int" || valueTypeName = "Float" then
          acc ++ [⟨fieldName, .named valueTypeName⟩,
            ⟨fieldName ++ "_not", .named valueTypeName⟩,
            ⟨fieldName ++ "_in", .list (.nonNull (.named valueTypeName))⟩,
            ⟨fieldName ++ "_not_in", .list (.nonNull (.named valueTypeName))⟩,
            ⟨fieldName ++ "_lt", .named valueTypeName⟩,
            ⟨fieldName ++ "_lte", .named valueTypeName⟩,
            ⟨fieldName ++ "_gt", .named valueTypeName⟩,
            ⟨fieldName ++ "_gte", .named valueTypeName⟩]
        else if valueTypeName = "Boolean" then
          acc ++ [⟨fieldName, .named valueTypeName⟩,
            ⟨fieldName ++ "_not", .named valueTypeName⟩]
        else if isKind valueType "EnumTypeDefinition" then
          acc ++ [⟨fieldName, .named valueTypeName⟩,
            ⟨fieldName ++ "_not", .named valueTypeName⟩,
            ⟨fieldName ++ "_in", .list (.nonNull (.named valueTypeName))⟩,
            ⟨fieldName ++ "_not_in", .list (.nonNull (.named valueTypeName))⟩]
        else if isKind valueType "ObjectTypeDefinition" &&
                (getFieldDirective t "relation").isSome &&
                shouldAugmentType config "query" valueTypeName then
          let nested := "_" ++ valueTypeName ++ "Filter"
          acc ++ [⟨fieldName, .named nested⟩,
            ⟨fieldName ++ "_not", .named nested⟩,
            ⟨fieldName ++ "_in", .list (.nonNull (.named nested))⟩,
            ⟨fieldName ++ "_not_in", .list (.nonNull (.named nested))⟩]
        else acc
      else if isKind valueType "ObjectTypeDefinition" &&
              (getFieldDirective t "relation").isSome &&
              shouldAugmentType config "query" valueTypeName then
        let nested := "_" ++ valueTypeName ++ "Filter"
        acc ++ [⟨fieldName, .named nested⟩,
          ⟨fieldName ++ "_not", .named nested⟩,
          ⟨fieldName ++ "_in", .list (.nonNull (.named nested))⟩,
          ⟨fieldName ++ "_not_in", .list (.nonNull (.named nested))⟩,
          ⟨fieldName ++ "_some", .named nested⟩,
          ⟨fieldName ++ "_none", .named nested⟩,
          ⟨fieldName ++ "_single", .named nested⟩,
          ⟨fieldName ++ "_every", .named nested⟩]
      else acc
    else acc) []
  ⟨"AND", .list (.named filterType)⟩ :: ⟨"OR", .list (.named filterType)⟩ :: filterFields

/-- `possiblyAddFilterInput` (source): create the `_<Type>Filter` input type
for query-augmented node types (stored as a parsed Document). -/
def possiblyAddFilterInput (astNode : TypeDef) (tm : TypeMap) (resolvers : Resolvers)
    (config : Config) : Except JsError TypeMap := do
  let typeName ← tdNameE astNode
  if isNodeType (some astNode) && shouldAugmentType config "query" typeName then
    let name := "_" ++ typeName ++ "Filter"
    let filterFields := buildFilterFields name astNode tm resolvers config
    if lookupType tm name = none ∧ filterFields.length > 0 then
      pure (setKey tm name (.doc (.inputObj name filterFields)))
    else pure tm
  else pure tm

/-- `possiblyAddOrderingEnum` (source): create the `_<Type>Ordering` enum for
query-augmented node types with at least one orderable field. -/
def possiblyAddOrderingEnum (astNode : TypeDef) (tm : TypeMap) (resolvers : Resolvers)
    (config : Config) : Except JsError TypeMap := do
  let typeName ← tdNameE astNode
  if isNodeType (some astNode) && shouldAugmentType config "query" typeName then
    let name := "_" ++ typeName ++ "Ordering"
    let values := createOrderingFields astNode tm resolvers
    if lookupType tm name = none ∧ values.length > 0 then
      pure (setKey tm name (.enumDef name values))
    else pure tm
  else pure tm

/-- `buildRelationTypeInputFields` (source): the property fields of a
relationship type, as input values with managed temporal names rewritten. -/
def buildRelationTypeInputFields (astNode : TypeDef) (fields : List FieldDef)
    (tm : TypeMap) (resolvers : Resolvers) : List InputValue :=
  let relationInputFields := fields.foldl (fun acc t =>
    let valueTypeName := leafName t.type
    let valueType := lookupType tm valueTypeName
    if fieldIsNotIgnored astNode t resolvers && isNotSystemField t.name &&
       (getFieldDirective t "cypher").isNone &&
       (isBasicScalar valueTypeName || isKind valueType "EnumTypeDefinition" ||
        isKind valueType "ScalarTypeDefinition" || isTemporalType valueTypeName) then
      acc ++ [⟨t.name, t.type⟩]
    else acc) []
  transformManagedFieldTypes relationInputFields

/-- `possiblyAddTypeInput` (source): for node types, the primary-key input
`_<Type>Input`; for relationship types, the property input used by the `data`
argument of generated relation mutations.  Reading the `from`/`to` field of a
relationship-directive type that lacks them throws a TypeError, as in the
source (`_getNamedType(undefined)`). -/
def possiblyAddTypeInput (astNode : TypeDef) (tm : TypeMap) (resolvers : Resolvers)
    (config : Config) : Except JsError TypeMap := do
  let typeName ← tdNameE astNode
  if shouldAugmentType config "mutation" typeName then
    let inputName := "_" ++ typeName ++ "Input"
    if isNodeType (some astNode) then
      if lookupType tm inputName = none then
        match getPrimaryKey astNode with
        | some pk =>
          pure (setKey tm inputName (.doc (.inputObj inputName
            [⟨pk.name, .nonNull (.named (decideFieldType (leafName pk.type)))⟩])))
        | none => pure tm
      else pure tm
    else if (getTypeDirective (some astNode) "relation").isSome then
      if lookupType tm inputName = none then
        let fields := (fieldsOf astNode).getD []
        let hasSomePropertyField := fields.find? fun e => e.name ≠ "from" ∧ e.name ≠ "to"
        match fields.find? (·.name = "from") with
        | none => .error (.typeError "Cannot read type of undefined")
        | some fromField =>
          let fromName := leafName fromField.type
          match fields.find? (·.name = "to") with
          | none => .error (.typeError "Cannot read type of undefined")
          | some toField =>
            let toName := leafName toField.type
            if hasSomePropertyField.isSome &&
               shouldAugmentRelationField config "mutation" fromName toName then
              pure (setKey tm inputName (.doc (.inputObj inputName
                (buildRelationTypeInputFields astNode fields tm resolvers))))
            else pure tm
      else pure tm
    else pure tm
  else pure tm

/-- `stripOuterNonNull`: the source's `isNonNullType(t) ? t.type.type : t.type`
on a field definition, removing one outer non-null wrapper. -/
def stripOuterNonNull : GqlType → GqlType
  | .nonNull t => t
  | t => t

/-- `buildCreateMutationArguments` (source): every eligible non-system field;
the first required non-list ID field has its non-null wrapper stripped. -/
def buildCreateMutationArguments (astNode : TypeDef) (tm : TypeMap)
    (resolvers : Resolvers) : List InputValue :=
  let step : (List InputValue × Bool) → FieldDef → (List InputValue × Bool) :=
    fun (p : List InputValue × Bool) t =>
      let acc := p.1
      let haveIdField := p.2
      let valueTypeName := leafName t.type
      let valueType := lookupType tm valueTypeName
      if fieldIsNotIgnored astNode t resolvers then
        if isNotSystemField t.name && (getFieldDirective t "cypher").isNone &&
           (isBasicScalar valueTypeName || isKind valueType "EnumTypeDefinition" ||
            isKind valueType "ScalarTypeDefinition" || isTemporalType valueTypeName) then
          if isNonNullField t && !isListField t && valueTypeName = "ID" && !haveIdField then
            (acc ++ [⟨t.name, .named valueTypeName⟩], true)
          else (acc ++ [⟨t.name, t.type⟩], haveIdField)
        else (acc, haveIdField)
      else (acc, haveIdField)
  let mutationArgs := (((fieldsOf astNode).getD []).foldl step ([], false)).1
  buildInputValueDefinitions (transformManagedFieldTypes mutationArgs)

/-- `buildUpdateMutationArguments` (source): primary key first and required;
every other eligible field optional (outer non-null stripped); empty when no
other eligible field exists. -/
def buildUpdateMutationArguments (primaryKey : FieldDef) (astNode : TypeDef)
    (tm : TypeMap) (resolvers : Resolvers) : List InputValue :=
  let primaryKeyName := primaryKey.name
  let parsedPrimaryKeyField : InputValue :=
    ⟨primaryKeyName, .nonNull (.named (leafName primaryKey.type))⟩
  let mutationArgs := ((fieldsOf astNode).getD []).foldl (fun acc t =>
    let valueTypeName := leafName t.type
    let valueType := lookupType tm valueTypeName
    if fieldIsNotIgnored astNode t resolvers then
      if t.name ≠ primaryKeyName && isNotSystemField t.name &&
         (getFieldDirective t "cypher").isNone &&
         (isBasicScalar valueTypeName || isKind valueType "EnumTypeDefinition" ||
          isKind valueType "ScalarTypeDefinition" || isTemporalType valueTypeName) then
        acc ++ [⟨t.name, stripOuterNonNull t.type⟩]
      else acc
    else acc) []
  if mutationArgs.length > 0 then
    buildInputValueDefinitions (transformManagedFieldTypes (parsedPrimaryKeyField :: mutationArgs))
  else mutationArgs

/-- `buildDeleteMutationArguments` (source): only the primary key, required. -/
def buildDeleteMutationArguments (primaryKey : FieldDef) : List InputValue :=
  buildInputValueDefinitions (transformManagedFieldTypes
    [⟨primaryKey.name, .nonNull (.named (leafName primaryKey.type))⟩])

/-- `buildMutationArguments` (source): dispatch on the mutation kind.  The
`Update` and `Delete` cases are guarded by the primary key and the switch has
no `break`, so with no primary key both fall through and the function returns
`undefined` (embedded as `none`). -/
def buildMutationArguments (mutationType : String) (astNode : TypeDef)
    (resolvers : Resolvers) (tm : TypeMap) : Option (List InputValue) :=
  let primaryKey := getPrimaryKey astNode
  if mutationType = "Create" then
    some (buildCreateMutationArguments astNode tm resolvers)
  else if mutationType = "Update" then
    match primaryKey with
    | some pk => some (buildUpdateMutationArguments pk astNode tm resolvers)
    | none => none
  else if mutationType = "Delete" then
    match primaryKey with
    | some pk => some (buildDeleteMutationArguments pk)
    | none => none
  else none

/-- `possiblyAddTypeMutation` (source): generate one root mutation field when
its name is fresh and its argument list is non-empty.  When
`buildMutationArguments` returns `undefined`, the source reads `.length` of
`undefined` and throws a TypeError. -/
def possiblyAddTypeMutation (mutationType : String) (astNode : TypeDef)
    (resolvers : Resolvers) (tm : TypeMap) (mutationMap : List (String × FieldDef))
    (config : Config) : Except JsError TypeMap := do
  let typeName ← tdNameE astNode
  let mutationName := mutationType ++ typeName
  if opLookup mutationMap mutationName = none then
    match buildMutationArguments mutationType astNode resolvers tm with
    | none => .error (.typeError "Cannot read length of undefined")
    | some args =>
      if args.length > 0 then
        pushFieldOnKey tm "Mutation"
          ⟨mutationName, args, .named typeName,
            (possiblyAddScopeDirective "node" mutationType typeName none config).toList⟩
      else pure tm
  else pure tm

/-- `possiblyAddTypeMutations` (source): the Create/Update/Delete root mutation
fields for a mutation-augmented node type. -/
def possiblyAddTypeMutations (astNode : TypeDef) (tm : TypeMap) (resolvers : Resolvers)
    (config : Config) : Except JsError TypeMap := do
  let typeName ← tdNameE astNode
  if shouldAugmentType config "mutation" typeName then
    let mutationMap := createOperationMap (lookupType tm "Mutation")
    if isNodeType (some astNode) && shouldAugmentType config "mutation" typeName then
      let tm ← possiblyAddTypeMutation "Create" astNode resolvers tm mutationMap config
      let tm ← possiblyAddTypeMutation "Update" astNode resolvers tm mutationMap config
      let tm ← possiblyAddTypeMutation "Delete" astNode resolvers tm mutationMap config
      pure tm
    else pure tm
  else pure tm

/-- The first character upper-cased and the remainder kept, as computed inline
in `handleRelationFields` (`charAt(0).toUpperCase() + substr(1)`). -/
def capitalizeFirst (s : String) : String :=
  match s.data with
  | [] => ""
  | c :: cs => String.mk (c.toUpper :: cs)

/-- The name, from and to values read off a `relation` type directive. -/
structure RelDirArgs where
  relName : String
  fromName : String
  toName : String
  deriving Repr, DecidableEq

/-- Modelled from the spec: `getRelationTypeDirectiveArgs` of the external
utils reads the `name`/`from`/`to` arguments off a type's `relation`
directive, or nothing when the directive is absent. -/
def getRelationTypeDirectiveArgs (td : TypeDef) : Option RelDirArgs :=
  match getTypeDirective (some td) "relation" with
  | some d =>
    match d.args.find? (·.name = "name"), d.args.find? (·.name = "from"),
          d.args.find? (·.name = "to") with
    | some n, some f, some t => some ⟨n.value, f.value, t.value⟩
    | _, _, _ => none
  | none => none

/-- Modelled from the spec: `getRelationName` of the external utils reads the
`name` argument of a field-level `relation` directive; the source throws when
it is missing, which the caller maps to an error here. -/
def getRelationName (d : Directive) : Option String :=
  (d.args.find? (·.name = "name")).map (·.value)

/-- Modelled from the spec: `getRelationDirection` of the external utils reads
the `direction` argument of a field-level `relation` directive, defaulting to
`OUT`. -/
def getRelationDirection (d : Directive) : String :=
  ((d.args.find? (·.name = "direction")).map (·.value)).getD "OUT"

/-- Modelled from the spec: `getRelationMutationPayloadFieldsFromAst` of the
external utils re-prints every field of the relationship type other than
`from` and `to` for splicing into the mutation payload type. -/
def getRelationMutationPayloadFieldsFromAst (relatedAstNode : TypeDef) : List FieldDef :=
  ((fieldsOf relatedAstNode).getD []).filter fun t => t.name ≠ "from" ∧ t.name ≠ "to"

/-- `getFieldArgumentsFromAst` (source): called from the reflexive payload
branch with only `(field, typeName)`, so the `fieldIsList` parameter is
`undefined` and no pagination arguments are added; the printed argument string
therefore carries exactly the field's own arguments. -/
def getFieldArgumentsFromAst (field : FieldDef) (_typeName : String) : List InputValue :=
  field.arguments

/-- The `reduce` of `possiblyAddRelationTypeFieldPayload`: the last `from`/`to`
field values and the remaining (property) fields of a relationship type. -/
def relationFieldScan (fields : List FieldDef) :
    Option String × Option String × List FieldDef :=
  fields.foldl (fun acc t =>
    let fieldValueName := leafName t.type
    if t.name = "from" then (some fieldValueName, acc.2.1, acc.2.2)
    else if t.name = "to" then (acc.1, some fieldValueName, acc.2.2)
    else (acc.1, acc.2.1, acc.2.2 ++ [t])) (none, none, [])

/-- `possiblyAddRelationTypeFieldPayload` (source): synthesize the relation
payload type (and, for a reflexive relationship, the `...Directions` wrapper,
clearing the field's arguments) when the payload name is fresh.  A missing
`from`/`to` value is interpolated as the string `undefined` by the source's
template, which the embedding reproduces. -/
def possiblyAddRelationTypeFieldPayload (relationAstNode : TypeDef)
    (capitalizedFieldName typeName : String) (tm : TypeMap) (field : FieldDef) :
    TypeMap × FieldDef :=
  let fieldTypeName := "_" ++ typeName ++ capitalizedFieldName
  if (lookupType tm fieldTypeName).isNone then
    match getRelationTypeDirectiveArgs relationAstNode with
    | some _ =>
      let fields := (fieldsOf relationAstNode).getD []
      let scan := relationFieldScan fields
      let fromValue := scan.1
      let toValue := scan.2.1
      let relationTypePayloadFields := scan.2.2
      let dirs := (directivesOf relationAstNode).getD []
      let reflexive :=
        match fromValue with
        | some fv => fv ≠ "" && toValue = some fv
        | none => false
      if reflexive then
        let fv := fromValue.getD "undefined"
        let fieldIsList := isListField field
        let fieldArgs := getFieldArgumentsFromAst field typeName
        let wrap : GqlType :=
          if fieldIsList then .list (.named fieldTypeName) else .named fieldTypeName
        let tm := setKey tm (fieldTypeName ++ "Directions")
          (.doc (.obj (fieldTypeName ++ "Directions") dirs
            [⟨"from", fieldArgs, wrap, []⟩, ⟨"to", fieldArgs, wrap, []⟩]))
        let tm := setKey tm fieldTypeName
          (.doc (.obj fieldTypeName dirs (relationTypePayloadFields ++ [mkF fv fv])))
        (tm, { field with arguments := [] })
      else
        let fvStr := fromValue.getD "undefined"
        let tvStr := toValue.getD "undefined"
        let endpoint : List FieldDef :=
          if toValue = some typeName then [mkF fvStr fvStr]
          else if fromValue = some typeName then [mkF tvStr tvStr]
          else []
        let tm := setKey tm fieldTypeName
          (.doc (.obj fieldTypeName dirs (relationTypePayloadFields ++ endpoint)))
        (tm, field)
    | none => (tm, field)
  else (tm, field)

/-- One `Add`/`Remove` iteration of `possiblyAddRelationMutationField`
(source): generate the relation mutation field with its `MutationMeta`
directive and, when fresh, its payload type. -/
def relationMutationStep (action typeName capitalizedFieldName fromName toName
    relationName : String) (mutationMap : List (String × FieldDef))
    (relatedAstNode : TypeDef) (relationHasProps : Bool) (config : Config)
    (tm : TypeMap) : Except JsError TypeMap := do
  let mutationName := action ++ typeName ++ capitalizedFieldName
  if opLookup mutationMap mutationName = none then
    let payloadTypeName := "_" ++ mutationName ++ "Payload"
    let relatedName ← tdNameE relatedAstNode
    let fields ←
      match fieldsOf relatedAstNode with
      | some fs => Except.ok fs
      | none => Except.error (.typeError "Cannot read fields of node without fields")
    let hasSomePropertyField := fields.any fun e => e.name ≠ "from" ∧ e.name ≠ "to"
    let shouldUseRelationDataArgument :=
      relationHasProps && hasSomePropertyField && action = "Add"
    let authDirectives := possiblyAddScopeDirective "relation" action typeName (some toName) config
    let mutationField : FieldDef :=
      ⟨mutationName,
        [⟨"from", .nonNull (.named ("_" ++ fromName ++ "Input"))⟩,
         ⟨"to", .nonNull (.named ("_" ++ toName ++ "Input"))⟩] ++
        (if shouldUseRelationDataArgument then
          [⟨"data", .nonNull (.named ("_" ++ relatedName ++ "Input"))⟩]
         else []),
        .named payloadTypeName,
        ⟨"MutationMeta",
          [⟨"relationship", relationName⟩, ⟨"from", fromName⟩, ⟨"to", toName⟩]⟩ ::
          authDirectives.toList⟩
    let tm ← pushFieldOnKey tm "Mutation" mutationField
    if lookupType tm payloadTypeName = none then
      pure (setKey tm payloadTypeName (.doc (.obj payloadTypeName
        [⟨"relation", [⟨"name", relationName⟩, ⟨"from", fromName⟩, ⟨"to", toName⟩]⟩]
        ([mkF "from" fromName, mkF "to" toName] ++
         (if shouldUseRelationDataArgument then
            getRelationMutationPayloadFieldsFromAst relatedAstNode
          else [])))))
    else pure tm
  else pure tm

/-- `possiblyAddRelationMutationField` (source): the `Add` and `Remove`
relation mutation fields for one resolved relationship. -/
def possiblyAddRelationMutationField (typeName capitalizedFieldName fromName
    toName : String) (mutationMap : List (String × FieldDef)) (tm : TypeMap)
    (relationName : String) (relatedAstNode : TypeDef) (relationHasProps : Bool)
    (config : Config) : Except JsError TypeMap := do
  let tm ← relationMutationStep "Add" typeName capitalizedFieldName fromName toName
    relationName mutationMap relatedAstNode relationHasProps config tm
  relationMutationStep "Remove" typeName capitalizedFieldName fromName toName
    relationName mutationMap relatedAstNode relationHasProps config tm

/-- `validateRelationTypeDirectedFields` (source): a relationship whose
`from`/`to` pair involves neither the owning type nor is reflexive is
rejected.  The source's error template references the identifiers `field` and
`relatedAstNode`, which are not in scope in that function, so evaluating the
template throws `ReferenceError: field is not defined` instead of the intended
structural error. -/
def validateRelationTypeDirectedFields (typeName fromName toName : String) :
    Except JsError Bool :=
  if fromName ≠ toName ∧ toName ≠ typeName ∧ fromName ≠ typeName then
    .error (.referenceError "field")
  else .ok true

/-- `replaceRelationTypeValue` (source): rewrite a relationship-type-valued
field's type to the payload name (with `Directions` suffix when reflexive); a
list wrapper is restored only in the non-reflexive case. -/
def replaceRelationTypeValue (fromName toName : String) (field : FieldDef)
    (capitalizedFieldName typeName : String) : FieldDef :=
  let isList := isListField field
  let t : GqlType := .named ("_" ++ typeName ++ capitalizedFieldName ++
    (if fromName = toName then "Directions" else ""))
  let t := if isList ∧ fromName ≠ toName then .list t else t
  { field with type := t }

/-- `handleRelationTypeDirective` (source): relation mutations (policy- and
validation-gated), payload/wrapper synthesis, and the field rewrite, for a
field whose value type carries a `relation` type directive.  The source reads
the `name`/`from`/`to` directive arguments unguarded; a missing one throws. -/
def handleRelationTypeDirective (relatedAstNode : TypeDef) (typeName : String)
    (field : FieldDef) (capitalizedFieldName : String)
    (relationTypeDirective : Directive) (config : Config) (tm : TypeMap)
    (mutationMap : List (String × FieldDef)) : Except JsError (TypeMap × FieldDef) := do
  let typeDirectiveArgs := relationTypeDirective.args
  match typeDirectiveArgs.find? (·.name = "name"), typeDirectiveArgs.find? (·.name = "from"),
        typeDirectiveArgs.find? (·.name = "to") with
  | some nameArgument, some fromArgument, some toArgument =>
    let relationName := nameArgument.value
    let fromName := fromArgument.value
    let toName := toArgument.value
    let tm ←
      if shouldAugmentRelationField config "mutation" fromName toName then do
        let v ← validateRelationTypeDirectedFields typeName fromName toName
        if v then
          possiblyAddRelationMutationField typeName capitalizedFieldName fromName toName
            mutationMap tm relationName relatedAstNode true config
        else pure tm
      else pure tm
    let p := possiblyAddRelationTypeFieldPayload relatedAstNode capitalizedFieldName
      typeName tm field
    pure (p.1, replaceRelationTypeValue fromName toName p.2 capitalizedFieldName typeName)
  | _, _, _ => .error (.typeError "Cannot read value of undefined")

/-- `handleRelationFieldDirective` (source): relation mutations for a
node-type-valued field carrying a field-level `relation` directive; an inbound
direction swaps the endpoints. -/
def handleRelationFieldDirective (relatedAstNode : TypeDef) (typeName : String)
    (capitalizedFieldName fieldValueName : String) (relationFieldDirective : Directive)
    (mutationMap : List (String × FieldDef)) (tm : TypeMap) (config : Config) :
    Except JsError TypeMap := do
  let fromName := typeName
  let toName := fieldValueName
  if shouldAugmentRelationField config "mutation" fromName toName then
    match getRelationName relationFieldDirective with
    | none => .error .missingRelationName
    | some relationName =>
      let direction := getRelationDirection relationFieldDirective
      let pair := if direction = "IN" ∨ direction = "in" then (toName, fromName)
        else (fromName, toName)
      possiblyAddRelationMutationField typeName capitalizedFieldName pair.1 pair.2
        mutationMap tm relationName relatedAstNode false config
  else pure tm

/-- The field iteration of `handleRelationFields` (source), threading the type
map and rebuilding the (in-place mutated) field list. -/
def handleRelationFieldsGo (astNode : TypeDef) (typeName : String)
    (mutationMap : List (String × FieldDef)) (resolvers : Resolvers) (config : Config) :
    TypeMap → List FieldDef → List FieldDef → Except JsError (TypeMap × List FieldDef)
  | tm, done, [] => pure (tm, done)
  | tm, done, field :: rest =>
    if fieldIsNotIgnored astNode field resolvers then
      let fieldValueName := leafName field.type
      let capitalizedFieldName := capitalizeFirst field.name
      match lookupType tm fieldValueName with
      | some relatedAstNode =>
        let relationTypeDirective := getTypeDirective (some relatedAstNode) "relation"
        let relationFieldDirective := getFieldDirective field "relation"
        if isNodeType (some relatedAstNode) then
          match relationFieldDirective with
          | some rfd => do
            let tm ← handleRelationFieldDirective relatedAstNode typeName
              capitalizedFieldName fieldValueName rfd mutationMap tm config
            handleRelationFieldsGo astNode typeName mutationMap resolvers config tm
              (done ++ [field]) rest
          | none =>
            handleRelationFieldsGo astNode typeName mutationMap resolvers config tm
              (done ++ [field]) rest
        else
          match relationTypeDirective with
          | some rtd => do
            let p ← handleRelationTypeDirective relatedAstNode typeName field
              capitalizedFieldName rtd config tm mutationMap
            handleRelationFieldsGo astNode typeName mutationMap resolvers config p.1
              (done ++ [p.2]) rest
          | none =>
            handleRelationFieldsGo astNode typeName mutationMap resolvers config tm
              (done ++ [field]) rest
      | none =>
        handleRelationFieldsGo astNode typeName mutationMap resolvers config tm
          (done ++ [field]) rest
    else
      handleRelationFieldsGo astNode typeName mutationMap resolvers config tm
        (done ++ [field]) rest

/-- `handleRelationFields` (source).  The JS mutates the node's shared field
array in place; the embedding writes the rebuilt field list back under the
type's name (keys and internal names coincide on parser-produced maps). -/
def handleRelationFields (astNode : TypeDef) (tm : TypeMap) (resolvers : Resolvers)
    (config : Config) : Except JsError TypeMap := do
  let mutationMap := createOperationMap (lookupType tm "Mutation")
  let typeName ← tdNameE astNode
  if isNodeType (some astNode) then do
    let p ← handleRelationFieldsGo astNode typeName mutationMap resolvers config tm []
      ((fieldsOf astNode).getD [])
    pure (setKey p.1 typeName (withFields astNode p.2))
  else pure tm

/-- `possiblyAddObjectType` (source): insert an empty object type when the
name is free. -/
def possiblyAddObjectType (tm : TypeMap) (name : String) : TypeMap :=
  if lookupType tm name = none then setKey tm name (.obj name [] []) else tm

/-- `hasNonExcludedNodeType` (source): some key holds a node type that the
policy augments for the given operation. -/
def hasNonExcludedNodeType (types : List String) (tm : TypeMap) (rootType : String)
    (config : Config) : Bool :=
  types.any fun e =>
    match lookupType tm e with
    | some td => isNodeType (some td) && shouldAugmentType config rootType (tdName td)
    | none => false

/-- `initializeOperationTypes` (source): seed the root operation container
types when some node type is augmentable for the operation. -/
def initializeOperationTypes (tm : TypeMap) (rootTypes : RootTypes) (config : Config) :
    TypeMap :=
  let types := keysOf tm
  let tm := if hasNonExcludedNodeType types tm "query" config then
      possiblyAddObjectType tm rootTypes.query
    else tm
  if hasNonExcludedNodeType types tm "mutation" config then
    possiblyAddObjectType tm rootTypes.mutation
  else tm

/-- The character walk of `transformRelationName` (source): upper-case every
character and prefix an underscore to characters that were already upper-case,
except at position zero. -/
def transformRelationNameChars : List Char → Nat → String
  | [], _ => ""
  | c :: cs, i =>
    let uppercased := c.toUpper
    (if c = uppercased ∧ i > 0 then String.mk ['_', uppercased]
     else String.mk [uppercased]) ++ transformRelationNameChars cs (i + 1)

/-- `transformRelationName` (source): the default relationship name derived
from the relationship type's name. -/
def transformRelationName (relatedAstNode : TypeDef) : String :=
  transformRelationNameChars (tdName relatedAstNode).data 0

/-- One entry of the `addRelationTypeDirectives` walk (source): a type with
exactly one of `from`/`to` is a structural error; a type with both gets its
`relation` directive normalized (replaced or appended). -/
def addRelationTypeDirectivesEntry (p : String × TypeDef) :
    Except JsError (String × TypeDef) :=
  match p.2 with
  | .obj name dirs fields =>
    let toField := fields.find? (·.name = "to")
    let fromField := fields.find? (·.name = "from")
    match toField, fromField with
    | some _, none => .error (.toFieldWithoutFrom name)
    | none, some _ => .error (.fromFieldWithoutTo name)
    | none, none => .ok p
    | some toF, some fromF =>
      let fromTypeName := leafName fromF.type
      let toTypeName := leafName toF.type
      let defaultName := transformRelationName (.obj name dirs fields)
      match dirs.findIdx? (·.name = "relation") with
      | some i =>
        let typeDirective := dirs.getD i ⟨"relation", []⟩
        let relationName :=
          match typeDirective.args.find? (·.name = "name") with
          | some nameArg => nameArg.value
          | none => defaultName
        .ok (p.1, .obj name
          (dirs.set i ⟨"relation",
            [⟨"name", relationName⟩, ⟨"from", fromTypeName⟩, ⟨"to", toTypeName⟩]⟩) fields)
      | none =>
        .ok (p.1, .obj name
          (dirs ++ [⟨"relation",
            [⟨"name", defaultName⟩, ⟨"from", fromTypeName⟩, ⟨"to", toTypeName⟩]⟩]) fields)
  | _ => .ok p

/-- `addRelationTypeDirectives` (source): normalize every object type of the
map, aborting on the first one-sided relationship type.  (The `Object.keys`
walk updates each key independently, so it is an entrywise traversal.) -/
def addRelationTypeDirectives : TypeMap → Except JsError TypeMap
  | [] => .ok []
  | p :: rest => do
    let q ← addRelationTypeDirectivesEntry p
    let rest2 ← addRelationTypeDirectives rest
    pure (q :: rest2)

/-- Modelled from the spec: `addDirectiveDeclarations` of the external utils
inserts declarations for every directive kind the engine introduces (the
relationship-type marker, the relationship-mutation metadata marker, the
computed-field marker and the ignore marker). -/
def addDirectiveDeclarations (tm : TypeMap) (_config : Config) : TypeMap :=
  ["cypher", "relation", "MutationMeta", "neo4j_ignore"].foldl
    (fun m n => setKey m n (.directiveDef n)) tm

/-- `augmentQueryArguments` (source): add pagination/ordering/filter arguments
to root query fields returning non-excluded node types, then write the field
list back onto the query container. -/
def augmentQueryArguments (tm : TypeMap) (config : Config) (rootTypes : RootTypes) :
    TypeMap :=
  let queryType := rootTypes.query
  let queryMap := createOperationMap (lookupType tm queryType)
  if queryMap.length > 0 then
    let queryMap := queryMap.map fun p =>
      let field := p.2
      let valueTypeName := leafName field.type
      let valueType := lookupType tm valueTypeName
      if isNodeType valueType && shouldAugmentType config "query" valueTypeName then
        let args := if isListField field then
            possiblyAddOrderingArgument
              (possiblyAddArgument (possiblyAddArgument field.arguments "first" "Int")
                "offset" "Int") valueTypeName
          else field.arguments
        let args := if (getFieldDirective field "cypher").isNone then
            possiblyAddArgument args "filter" ("_" ++ valueTypeName ++ "Filter")
          else args
        (p.1, { field with arguments := args })
      else p
    match lookupType tm queryType with
    | some td => setKey tm queryType (withFields td (queryMap.map (·.2)))
    | none => tm
  else tm

/-- One iteration of the per-type loop of `augmentTypeMap` (source), for one
name of the `Object.entries` snapshot. -/
def augmentLoopStep (rootTypes : RootTypes) (resolvers : Resolvers) (config : Config)
    (tm : TypeMap) (name : String) : Except JsError TypeMap :=
  if isTemporalType name then pure tm
  else match lookupType tm name with
  | none => pure tm
  | some type0 => do
    let type1 := augmentType type0 tm resolvers rootTypes config
    let tm := setKey tm name type1
    let tm ← possiblyAddQuery type1 tm resolvers rootTypes config
    let tm ← possiblyAddOrderingEnum type1 tm resolvers config
    let tm ← possiblyAddTypeInput type1 tm resolvers config
    let tm ← possiblyAddFilterInput type1 tm resolvers config
    let tm ← possiblyAddTypeMutations type1 tm resolvers config
    handleRelationFields type1 tm resolvers config

/-- `augmentTypeMap` (source): the full augmentation pipeline. -/
def augmentTypeMap (tm : TypeMap) (resolvers : Resolvers) (config : Config) :
    Except JsError TypeMap := do
  let rootTypes : RootTypes := ⟨"Query", "Mutation"⟩
  let config := excludeIgnoredTypes tm config
  let tm := initializeOperationTypes tm rootTypes config
  let tm ← addRelationTypeDirectives tm
  let tm := addTemporalTypes tm config
  let names := keysOf tm
  let tm ← names.foldlM (augmentLoopStep rootTypes resolvers config) tm
  let tm := augmentQueryArguments tm config rootTypes
  pure (addDirectiveDeclarations tm config)

/-- Running the pipeline and then running it again on the result. -/
def augmentTwice (tm : TypeMap) (resolvers : Resolvers) (config : Config) :
    Except JsError TypeMap :=
  (augmentTypeMap tm resolvers config).bind fun m => augmentTypeMap m resolvers config

/-- How many arguments named `argName` the root query field named `fieldName`
carries in an augmentation result. -/
def queryFieldArgCount (r : Except JsError TypeMap) (fieldName argName : String) :
    Option Nat :=
  match r with
  | .ok m =>
    match lookupType m "Query" with
    | some td => (((fieldsOf td).getD []).find? (·.name = fieldName)).map
        fun f => (f.arguments.filter (·.name = argName)).length
    | none => none
  | .error _ => none

/-- An augmentation succeeded and its result satisfies the given test. -/
def okSatisfies (r : Except JsError TypeMap) (p : TypeMap → Bool) : Bool :=
  match r with
  | .ok m => p m
  | .error _ => false

/-- A type whose object shape has exactly one of a `from`/`to` field. -/
def oneSidedRelation (td : TypeDef) : Bool :=
  match td with
  | .obj _ _ fields =>
    (fields.find? (·.name = "to")).isSome != (fields.find? (·.name = "from")).isSome
  | _ => false

/-- The root mutation container's field list in a type map. -/
def mutationFieldsOf (tm : TypeMap) : List FieldDef :=
  (fieldsOf ((lookupType tm "Mutation").getD (.scalarDef ""))).getD []

/-- Configuration with queries enabled and mutations disabled. -/
def cfgQueryOnly : Config := ⟨.bool true, .bool false, .bool false⟩

/-- Configuration with mutations enabled and queries disabled. -/
def cfgMutationOnly : Config := ⟨.bool false, .bool true, .bool false⟩

/-- Configuration with both operations enabled and temporal types disabled. -/
def cfgBothOps : Config := ⟨.bool true, .bool true, .bool false⟩

/-- A node type with a single optional string field and no primary key. -/
def personNameOnly : TypeDef := .obj "Person" [] [⟨"name", [], .named "String", []⟩]

/-- Idempotence counterexample input: one plain node type, and a user-supplied
filter input type so that the first run re-parses no derivative SDL. -/
def idempotenceInput : TypeMap :=
  [("Person", personNameOnly), ("_PersonFilter", .inputObj "_PersonFilter" [])]

/-- Primary-key-gating input: a node type with no required non-list ID field. -/
def noPrimaryKeyMap : TypeMap := [("Person", personNameOnly)]

/-- Temporal-rewrite input: a field of type `[DateTime!]!` carrying a bare
`DateTime` argument and a `[DateTime!]!` argument. -/
def movieTemporalInput : TypeDef := .obj "Movie" []
  [⟨"released",
    [⟨"bare", .named "DateTime"⟩, ⟨"wrapped", .nonNull (.list (.nonNull (.named "DateTime")))⟩],
    .nonNull (.list (.nonNull (.named "DateTime"))), []⟩]

/-- Configuration enabling only the `datetime` temporal kind. -/
def cfgDatetimeOnly : Config :=
  ⟨.bool true, .bool true, .object (some false) (some false) (some true) (some false) (some false)⟩

/-- Directed-fields counterexample: a relationship type whose `from`/`to` name
neither each other nor the owning type. -/
def badDirectedMap : TypeMap :=
  [("Person", .obj "Person" []
      [⟨"id", [], .nonNull (.named "ID"), []⟩, ⟨"rel", [], .named "REL", []⟩]),
   ("REL", .obj "REL"
      [⟨"relation", [⟨"name", "REL"⟩, ⟨"from", "A"⟩, ⟨"to", "B"⟩]⟩]
      [⟨"from", [], .named "A", []⟩, ⟨"to", [], .named "B", []⟩])]

/-- One-sided relationship type used to exhibit the structural error. -/
def oneSidedMap : TypeMap :=
  [("BadRel", .obj "BadRel" [] [⟨"to", [], .named "Movie", []⟩])]

/-- A node type used to witness policy suppression. -/
def fooType : TypeDef := .obj "Foo" [] [⟨"name", [], .named "String", []⟩]

/-- A map with a single excluded node type, and its exclusion config. -/
def fooOnlyMap : TypeMap := [("Foo", fooType)]

/-- Exclusion configuration used with `fooOnlyMap`. -/
def cfgExcludeFoo : Config := ⟨.exclude ["Foo"], .exclude ["Foo"], .bool false⟩

/-- Policy-respect counterexample input: the excluded type `Person` has a
relationship-type-valued field literally named `filter`, and the user supplies
a root query field `Person`, a root mutation field `CreatePerson` and an enum
named `_PersonOrdering`, all of which survive augmentation. -/
def exclusionLeftoversMap : TypeMap :=
  [("Person", .obj "Person" []
      [⟨"name", [], .named "String", []⟩, ⟨"filter", [], .named "REL", []⟩]),
   ("REL", .obj "REL"
      [⟨"relation", [⟨"name", "FRIEND"⟩, ⟨"from", "Person"⟩, ⟨"to", "Person"⟩]⟩]
      [⟨"from", [], .named "Person", []⟩, ⟨"to", [], .named "Person", []⟩]),
   ("Query", .obj "Query" [] [⟨"Person", [], .list (.named "Person"), []⟩]),
   ("Mutation", .obj "Mutation" [] [⟨"CreatePerson", [], .named "Person", []⟩]),
   ("_PersonOrdering", .enumDef "_PersonOrdering" ["name_asc", "name_desc"])]

/-- Exclusion configuration used with `exclusionLeftoversMap`. -/
def cfgExcludePerson : Config := ⟨.exclude ["Person"], .exclude ["Person"], .bool false⟩

/-- Reflexive relationship type (from and to both name `Person`). -/
def friendRelType : TypeDef := .obj "FRIEND_OF"
  [⟨"relation", [⟨"name", "FRIEND_OF"⟩, ⟨"from", "Person"⟩, ⟨"to", "Person"⟩]⟩]
  [⟨"from", [], .named "Person", []⟩, ⟨"to", [], .named "Person", []⟩,
   ⟨"since", [], .named "Int", []⟩]

/-- List-typed field whose value is the reflexive relationship type. -/
def friendsField : FieldDef := ⟨"friends", [⟨"x", .named "Int"⟩], .list (.named "FRIEND_OF"), []⟩

/-- Relationship type with a property field beyond `from`/`to`. -/
def actedInRelType : TypeDef := .obj "ACTED_IN"
  [⟨"relation", [⟨"name", "ACTED_IN"⟩, ⟨"from", "Person"⟩, ⟨"to", "Movie"⟩]⟩]
  [⟨"from", [], .named "Person", []⟩, ⟨"to", [], .named "Movie", []⟩,
   ⟨"roles", [], .list (.named "String"), []⟩]

/-- A map holding only an empty root mutation container. -/
def mutationSeedMap : TypeMap := [("Mutation", .obj "Mutation" [] [])]

end NeoAugment

namespace NeoAugment

/-! ## Generic helper lemmas -/

theorem except_bind_error {ε α β : Type} (e : ε) (f : α → Except ε β) :
    (Except.error e >>= f) = Except.error e := rfl

theorem except_bind_ok {ε α β : Type} (a : α) (f : α → Except ε β) :
    (Except.ok a >>= f) = f a := rfl

theorem except_map_error {ε α β : Type} (e : ε) (f : α → β) :
    (f <$> (Except.error e : Except ε α)) = Except.error e := rfl

theorem except_map_ok {ε α β : Type} (a : α) (f : α → β) :
    (f <$> (Except.ok a : Except ε α)) = Except.ok (f a) := rfl

theorem lookupType_setKey_self (tm : TypeMap) (k : String) (v : TypeDef) :
    lookupType (setKey tm k v) k = some v := by
  induction tm with
  | nil => simp [setKey, lookupType]
  | cons p rest ih =>
    by_cases h : p.1 = k
    · simp [setKey, h, lookupType]
    · simp [setKey, h, lookupType, ih]

theorem lookupType_setKey_ne (tm : TypeMap) (k k' : String) (v : TypeDef)
    (h : k' ≠ k) : lookupType (setKey tm k v) k' = lookupType tm k' := by
  have h' : ¬ (k = k') := fun he => h he.symm
  induction tm with
  | nil => simp [setKey, lookupType, h']
  | cons p rest ih =>
    obtain ⟨pk, pv⟩ := p
    by_cases hp : pk = k
    · subst hp
      simp [setKey, lookupType, h']
    · by_cases hp' : pk = k'
      · simp [setKey, hp, lookupType, hp', h]
      · simp [setKey, hp, lookupType, hp', ih]

theorem string_append_suffix_ne (s t : String) (h : t ≠ "") : s ++ t ≠ s := by
  intro he
  have h2 : (s ++ t).data = s.data := by rw [he]
  rw [String.data_append] at h2
  have h3 : t.data = [] := by
    have h4 := congrArg List.length h2
    simp at h4
    exact List.eq_nil_of_length_eq_zero h4
  apply h
  cases t
  simp at h3
  simp [h3]

theorem underscore_append_ne_mutation (s : String) : "_" ++ s ≠ "Mutation" := by
  intro h
  have h2 : ("_" ++ s).data = "Mutation".data := by rw [h]
  rw [String.data_append] at h2
  simp at h2

end NeoAugment

deriving instance DecidableEq for Except

namespace NeoAugment

/-! ## Claim theorems -/

/-- C1, counterexample.  Running the full augmentation pipeline twice is not
idempotent: on a map with one plain node type (and a user-supplied filter
input type), the second run duplicates the `orderBy` argument of the root
query field `Person`, because `possiblyAddOrderingArgument` guards its
insertion by looking for an argument named after the value type instead of
one named `orderBy`. -/
theorem augmentTypeMap_second_run_duplicates_orderBy :
    queryFieldArgCount (augmentTypeMap idempotenceInput () cfgQueryOnly) "Person" "orderBy"
      = some 1 ∧
    queryFieldArgCount (augmentTwice idempotenceInput () cfgQueryOnly) "Person" "orderBy"
      = some 2 ∧
    augmentTwice idempotenceInput () cfgQueryOnly ≠
      augmentTypeMap idempotenceInput () cfgQueryOnly := by
  decide

/-- C1, amended.  The generic argument-insertion guard `possiblyAddArgument`
is idempotent: re-applying it with the same argument name leaves the argument
list unchanged, so the arguments it manages are never duplicated by a re-run;
the pipeline as a whole is not idempotent (see the counterexample) because the
`orderBy` guard of `possiblyAddOrderingArgument` checks the wrong name. -/
theorem possiblyAddArgument_idempotent (args : List InputValue) (n t : String) :
    possiblyAddArgument (possiblyAddArgument args n t) n t = possiblyAddArgument args n t := by
  unfold possiblyAddArgument
  cases h : args.findIdx? (fun iv => iv.name = n) with
  | some i => simp [h]
  | none =>
    have hx : (args ++ [(⟨n, .named t⟩ : InputValue)]).findIdx? (fun iv => iv.name = n) ≠ none := by
      rw [List.findIdx?_append, h]
      simp
    simp [h, hx]

/-- C3.  A node type with no primary key (no required, non-list ID field):
`Create` arguments are produced from the eligible fields, while the `Update`
and `Delete` cases of `buildMutationArguments` fall through their primary-key
guards and return `undefined`, so `possiblyAddTypeMutation` crashes reading
`.length` of `undefined` and augmentation aborts instead of skipping the
Update/Delete mutations. -/
theorem no_primary_key_update_delete_crash :
    getPrimaryKey personNameOnly = none ∧
    buildMutationArguments "Update" personNameOnly () noPrimaryKeyMap = none ∧
    buildMutationArguments "Delete" personNameOnly () noPrimaryKeyMap = none ∧
    buildMutationArguments "Create" personNameOnly () noPrimaryKeyMap =
      some [⟨"name", .named "String"⟩] ∧
    augmentTypeMap noPrimaryKeyMap () cfgMutationOnly =
      .error (.typeError "Cannot read length of undefined") := by
  decide

/-- C6.  Temporal rewriting on a field of type `[DateTime!]!`: the field
(output position) is rewritten to `[_Neo4jDateTime!]!` with all wrapper
layers preserved, but a wrapped *argument* is rewritten to the output type
`_Neo4jDateTime` instead of the input twin, because the recursive call of
`transformTemporalTypeName` drops the `isArgument` flag; only a bare named
argument receives `_Neo4jDateTimeInput`. -/
theorem temporal_rewrite_argument_position_bug :
    lookupType (addTemporalTypes [("Movie", movieTemporalInput)] cfgDatetimeOnly) "Movie" =
      some (.obj "Movie" []
        [⟨"released",
          [⟨"bare", .named "_Neo4jDateTimeInput"⟩,
           ⟨"wrapped", .nonNull (.list (.nonNull (.named "_Neo4jDateTime")))⟩],
          .nonNull (.list (.nonNull (.named "_Neo4jDateTime"))), []⟩]) ∧
    transformTemporalTypeName (.nonNull (.list (.nonNull (.named "DateTime"))))
      (decideTemporalConfig cfgDatetimeOnly) true =
      .nonNull (.list (.nonNull (.named "_Neo4jDateTime"))) ∧
    transformTemporalTypeName (.named "DateTime")
      (decideTemporalConfig cfgDatetimeOnly) true = .named "_Neo4jDateTimeInput" := by
  decide

/-- C9.  A relationship-type-valued field whose `from`/`to` pair involves
neither the owning type: validation fails, but the error template references
the out-of-scope identifiers `field`/`relatedAstNode`, so augmentation aborts
with `ReferenceError: field is not defined` carrying none of the type, field
or from/to context the claim requires. -/
theorem directed_fields_validation_reference_error :
    validateRelationTypeDirectedFields "Person" "A" "B" = .error (.referenceError "field") ∧
    augmentTypeMap badDirectedMap () cfgBothOps = .error (.referenceError "field") := by
  decide

theorem setKey_eq_append_of_lookup_none (tm : TypeMap) (n : String) (v : TypeDef)
    (h : lookupType tm n = none) : setKey tm n v = tm ++ [(n, v)] := by
  induction tm with
  | nil => simp [setKey]
  | cons p rest ih =>
    obtain ⟨pk, pv⟩ := p
    by_cases hp : pk = n
    · simp [lookupType, hp] at h
    · simp [lookupType, hp] at h
      simp [setKey, hp, ih h]

theorem possiblyAddObjectType_shape (tm : TypeMap) (n : String) :
    ∃ extra : TypeMap, possiblyAddObjectType tm n = tm ++ extra := by
  unfold possiblyAddObjectType
  by_cases h : lookupType tm n = none
  · exact ⟨[(n, .obj n [] [])], by simp [h, setKey_eq_append_of_lookup_none tm n _ h]⟩
  · exact ⟨[], by simp [h]⟩

theorem initializeOperationTypes_shape (tm : TypeMap) (rts : RootTypes) (cfg : Config) :
    ∃ extra : TypeMap, initializeOperationTypes tm rts cfg = tm ++ extra := by
  unfold initializeOperationTypes
  by_cases hq : hasNonExcludedNodeType (keysOf tm) tm "query" cfg = true
  · obtain ⟨e1, he1⟩ := possiblyAddObjectType_shape tm rts.query
    rw [he1]
    by_cases hm : hasNonExcludedNodeType (keysOf tm) (tm ++ e1) "mutation" cfg = true
    · obtain ⟨e2, he2⟩ := possiblyAddObjectType_shape (tm ++ e1) rts.mutation
      refine ⟨e1 ++ e2, ?_⟩
      simp [hq, hm, he2, List.append_assoc]
    · refine ⟨e1, ?_⟩
      simp [hq, hm]
  · by_cases hm : hasNonExcludedNodeType (keysOf tm) tm "mutation" cfg = true
    · obtain ⟨e2, he2⟩ := possiblyAddObjectType_shape tm rts.mutation
      refine ⟨e2, ?_⟩
      simp [hq, hm, he2]
    · refine ⟨[], ?_⟩
      simp [hq, hm]

theorem addRelationTypeDirectivesEntry_ok_of_not_oneSided (p : String × TypeDef)
    (h : oneSidedRelation p.2 = false) :
    ∃ q, addRelationTypeDirectivesEntry p = .ok q := by
  obtain ⟨k, td⟩ := p
  cases td with
  | obj name dirs fields =>
    simp only [oneSidedRelation] at h
    cases hto : fields.find? (·.name = "to") with
    | some toF =>
      cases hfrom : fields.find? (·.name = "from") with
      | some fromF =>
        cases hidx : dirs.findIdx? (·.name = "relation") with
        | some i =>
          simp only [addRelationTypeDirectivesEntry, hto, hfrom, hidx]
          exact ⟨_, rfl⟩
        | none =>
          simp only [addRelationTypeDirectivesEntry, hto, hfrom, hidx]
          exact ⟨_, rfl⟩
      | none => simp [hto, hfrom] at h
    | none =>
      cases hfrom : fields.find? (·.name = "from") with
      | some fromF => simp [hto, hfrom] at h
      | none =>
        simp only [addRelationTypeDirectivesEntry, hto, hfrom]
        exact ⟨_, rfl⟩
  | interfaceDef name dirs fields => exact ⟨_, rfl⟩
  | inputObj name fields => exact ⟨_, rfl⟩
  | enumDef name values => exact ⟨_, rfl⟩
  | scalarDef name => exact ⟨_, rfl⟩
  | directiveDef name => exact ⟨_, rfl⟩
  | doc d => exact ⟨_, rfl⟩

theorem addRelationTypeDirectivesEntry_error_of_oneSided (p : String × TypeDef)
    (h : oneSidedRelation p.2 = true) :
    ∃ n, (addRelationTypeDirectivesEntry p = .error (.toFieldWithoutFrom n) ∨
          addRelationTypeDirectivesEntry p = .error (.fromFieldWithoutTo n)) ∧
      tdNameOpt p.2 = some n := by
  obtain ⟨k, td⟩ := p
  cases td with
  | obj name dirs fields =>
    simp only [oneSidedRelation] at h
    cases hto : fields.find? (·.name = "to") with
    | some toF =>
      cases hfrom : fields.find? (·.name = "from") with
      | some fromF => simp [hto, hfrom] at h
      | none =>
        refine ⟨name, Or.inl ?_, rfl⟩
        simp only [addRelationTypeDirectivesEntry, hto, hfrom]
    | none =>
      cases hfrom : fields.find? (·.name = "from") with
      | some fromF =>
        refine ⟨name, Or.inr ?_, rfl⟩
        simp only [addRelationTypeDirectivesEntry, hto, hfrom]
      | none => simp [hto, hfrom] at h
  | interfaceDef name dirs fields => simp [oneSidedRelation] at h
  | inputObj name fields => simp [oneSidedRelation] at h
  | enumDef name values => simp [oneSidedRelation] at h
  | scalarDef name => simp [oneSidedRelation] at h
  | directiveDef name => simp [oneSidedRelation] at h
  | doc d => simp [oneSidedRelation] at h

theorem addRelationTypeDirectives_error_of_oneSided (tm : TypeMap)
    (h : ∃ p ∈ tm, oneSidedRelation p.2 = true) :
    ∃ n, (addRelationTypeDirectives tm = .error (.toFieldWithoutFrom n) ∨
          addRelationTypeDirectives tm = .error (.fromFieldWithoutTo n)) ∧
      ∃ p ∈ tm, tdNameOpt p.2 = some n ∧ oneSidedRelation p.2 = true := by
  induction tm with
  | nil => simp at h
  | cons p rest ih =>
    by_cases hp : oneSidedRelation p.2 = true
    · obtain ⟨n, herr, hname⟩ := addRelationTypeDirectivesEntry_error_of_oneSided p hp
      refine ⟨n, ?_, p, by simp, hname, hp⟩
      cases herr with
      | inl he => exact Or.inl (by simp [addRelationTypeDirectives, he, except_bind_error])
      | inr he => exact Or.inr (by simp [addRelationTypeDirectives, he, except_bind_error])
    · have hrest : ∃ q ∈ rest, oneSidedRelation q.2 = true := by
        obtain ⟨q, hq, hone⟩ := h
        cases hq with
        | head => exact absurd hone hp
        | tail _ hmem => exact ⟨q, hmem, hone⟩
      obtain ⟨n, herr, q, hqmem, hqname, hqone⟩ := ih hrest
      obtain ⟨v, hv⟩ := addRelationTypeDirectivesEntry_ok_of_not_oneSided p
        (Bool.eq_false_iff.mpr hp)
      refine ⟨n, ?_, q, List.mem_cons_of_mem p hqmem, hqname, hqone⟩
      cases herr with
      | inl he =>
        exact Or.inl (by
          simp [addRelationTypeDirectives, hv, he, except_bind_ok, except_bind_error,
            except_map_error])
      | inr he =>
        exact Or.inr (by
          simp [addRelationTypeDirectives, hv, he, except_bind_ok, except_bind_error,
            except_map_error])

theorem addRelationTypeDirectives_ok_of_no_oneSided (tm : TypeMap)
    (h : ∀ p ∈ tm, oneSidedRelation p.2 = false) :
    ∃ tm2, addRelationTypeDirectives tm = .ok tm2 := by
  induction tm with
  | nil => exact ⟨[], rfl⟩
  | cons p rest ih =>
    obtain ⟨v, hv⟩ := addRelationTypeDirectivesEntry_ok_of_not_oneSided p (h p (by simp))
    obtain ⟨tm2, htm2⟩ := ih fun q hq => h q (List.mem_cons_of_mem p hq)
    exact ⟨v :: tm2, by
      simp [addRelationTypeDirectives, hv, htm2, except_bind_ok, except_map_ok]⟩

theorem addRelationTypeDirectives_append_error (tm extra : TypeMap) (e : JsError)
    (h : addRelationTypeDirectives tm = .error e) :
    addRelationTypeDirectives (tm ++ extra) = .error e := by
  induction tm with
  | nil => simp [addRelationTypeDirectives] at h
  | cons p rest ih =>
    cases hv : addRelationTypeDirectivesEntry p with
    | error e0 =>
      have he0 : e0 = e := by
        simp [addRelationTypeDirectives, hv, except_bind_error] at h
        exact h
      subst he0
      simp [addRelationTypeDirectives, hv, except_bind_error]
    | ok v =>
      cases hr : addRelationTypeDirectives rest with
      | error e1 =>
        have he1 : e1 = e := by
          simp [addRelationTypeDirectives, hv, hr, except_bind_ok, except_map_error] at h
          exact h
        subst he1
        simp [addRelationTypeDirectives, hv, ih hr, except_bind_ok, except_map_error]
      | ok r =>
        simp [addRelationTypeDirectives, hv, hr, except_bind_ok, except_map_ok] at h

theorem augmentTypeMap_error_of_addRel (tm : TypeMap) (r : Resolvers) (cfg : Config)
    (e : JsError)
    (h : addRelationTypeDirectives
      (initializeOperationTypes tm ⟨"Query", "Mutation"⟩ (excludeIgnoredTypes tm cfg)) =
        .error e) :
    augmentTypeMap tm r cfg = .error e := by
  simp [augmentTypeMap, h, except_bind_error]

/-- C2.  A type map containing an object type with exactly one of a `from`/`to`
field makes `addRelationTypeDirectives` raise the structural error naming a
one-sided type of the map, and the whole augmentation aborts with that error;
a map whose object types all carry both or neither raises no such error. -/
theorem addRelationTypeDirectives_one_sided_spec (tm : TypeMap) (r : Resolvers)
    (cfg : Config) :
    ((∃ p ∈ tm, oneSidedRelation p.2 = true) →
      ∃ n, (addRelationTypeDirectives tm = .error (.toFieldWithoutFrom n) ∨
            addRelationTypeDirectives tm = .error (.fromFieldWithoutTo n)) ∧
        (∃ p ∈ tm, tdNameOpt p.2 = some n ∧ oneSidedRelation p.2 = true) ∧
        (augmentTypeMap tm r cfg = .error (.toFieldWithoutFrom n) ∨
         augmentTypeMap tm r cfg = .error (.fromFieldWithoutTo n))) ∧
    ((∀ p ∈ tm, oneSidedRelation p.2 = false) →
      ∃ tm2, addRelationTypeDirectives tm = .ok tm2) := by
  constructor
  · intro h
    obtain ⟨n, herr, hw⟩ := addRelationTypeDirectives_error_of_oneSided tm h
    obtain ⟨extra, hshape⟩ :=
      initializeOperationTypes_shape tm ⟨"Query", "Mutation"⟩ (excludeIgnoredTypes tm cfg)
    refine ⟨n, herr, hw, ?_⟩
    cases herr with
    | inl he =>
      exact Or.inl (augmentTypeMap_error_of_addRel tm r cfg _
        (by rw [hshape]; exact addRelationTypeDirectives_append_error tm extra _ he))
    | inr he =>
      exact Or.inr (augmentTypeMap_error_of_addRel tm r cfg _
        (by rw [hshape]; exact addRelationTypeDirectives_append_error tm extra _ he))
  · exact addRelationTypeDirectives_ok_of_no_oneSided tm

/-- C2, witness: the one-sided map raises the structural error and aborts. -/
theorem addRelationTypeDirectives_one_sided_witness :
    ∃ n, (addRelationTypeDirectives oneSidedMap = .error (.toFieldWithoutFrom n) ∨
          addRelationTypeDirectives oneSidedMap = .error (.fromFieldWithoutTo n)) ∧
      (∃ p ∈ oneSidedMap, tdNameOpt p.2 = some n ∧ oneSidedRelation p.2 = true) ∧
      (augmentTypeMap oneSidedMap () cfgQueryOnly = .error (.toFieldWithoutFrom n) ∨
       augmentTypeMap oneSidedMap () cfgQueryOnly = .error (.fromFieldWithoutTo n)) :=
  (addRelationTypeDirectives_one_sided_spec oneSidedMap () cfgQueryOnly).1
    ⟨("BadRel", .obj "BadRel" [] [⟨"to", [], .named "Movie", []⟩]), by decide, by decide⟩

theorem mem_keys_lookup_isSome (tm : TypeMap) (k : String) (h : k ∈ keysOf tm) :
    (lookupType tm k).isSome := by
  induction tm with
  | nil => simp [keysOf] at h
  | cons p rest ih =>
    obtain ⟨pk, pv⟩ := p
    by_cases hp : pk = k
    · simp [lookupType, hp]
    · simp [keysOf, hp] at h
      cases h with
      | inl he => exact absurd he.symm hp
      | inr hmem => simpa [lookupType, hp] using ih (by simpa [keysOf] using hmem)

theorem lookupType_possiblyAddObjectType_ne (tm : TypeMap) (n k : String) (h : k ≠ n) :
    lookupType (possiblyAddObjectType tm n) k = lookupType tm k := by
  unfold possiblyAddObjectType
  by_cases hl : lookupType tm n = none
  · simp [hl, lookupType_setKey_ne tm n k _ h]
  · simp [hl]

theorem lookupType_possiblyAddObjectType_self_isSome (tm : TypeMap) (n : String) :
    (lookupType (possiblyAddObjectType tm n) n).isSome := by
  unfold possiblyAddObjectType
  by_cases hl : lookupType tm n = none
  · simp [hl, lookupType_setKey_self]
  · cases hv : lookupType tm n with
    | none => exact absurd hv hl
    | some v => simp [hv]

theorem lookupType_possiblyAddObjectType_isSome_preserved (tm : TypeMap) (n k : String)
    (h : (lookupType tm k).isSome) :
    (lookupType (possiblyAddObjectType tm n) k).isSome := by
  by_cases hk : k = n
  · subst hk
    exact lookupType_possiblyAddObjectType_self_isSome tm k
  · rw [lookupType_possiblyAddObjectType_ne tm n k hk]
    exact h

theorem keys_lookup_possiblyAddObjectType (tm : TypeMap) (n : String) :
    ∀ e ∈ keysOf tm, lookupType (possiblyAddObjectType tm n) e = lookupType tm e := by
  intro e he
  by_cases hk : e = n
  · subst hk
    unfold possiblyAddObjectType
    cases hv : lookupType tm e with
    | none =>
      have := mem_keys_lookup_isSome tm e he
      simp [hv] at this
    | some v => simp [hv]
  · exact lookupType_possiblyAddObjectType_ne tm n e hk

theorem hasNonExcludedNodeType_congr (types : List String) (tm tm' : TypeMap)
    (rootType : String) (cfg : Config)
    (h : ∀ e ∈ types, lookupType tm' e = lookupType tm e) :
    hasNonExcludedNodeType types tm' rootType cfg =
      hasNonExcludedNodeType types tm rootType cfg := by
  unfold hasNonExcludedNodeType
  induction types with
  | nil => rfl
  | cons e ts ih =>
    simp only [List.any_cons]
    rw [h e (by simp), ih fun x hx => h x (List.mem_cons_of_mem e hx)]

theorem hasNonExcludedNodeType_iff (tm : TypeMap) (rootType : String) (cfg : Config) :
    hasNonExcludedNodeType (keysOf tm) tm rootType cfg = true ↔
      ∃ k ∈ keysOf tm, ∃ td, lookupType tm k = some td ∧ isNodeType (some td) = true ∧
        shouldAugmentType cfg rootType (tdName td) = true := by
  unfold hasNonExcludedNodeType
  rw [List.any_eq_true]
  constructor
  · rintro ⟨e, he, hp⟩
    cases hl : lookupType tm e with
    | none => simp [hl] at hp
    | some td =>
      rw [hl] at hp
      simp only [Bool.and_eq_true] at hp
      exact ⟨e, he, td, hl, hp.1, hp.2⟩
  · rintro ⟨k, hk, td, hl, h1, h2⟩
    exact ⟨k, hk, by simp [hl, h1, h2]⟩

/-- C10.  The root `Query` (resp. `Mutation`) container is inserted by
`initializeOperationTypes` exactly when some key of the input map holds a
policy-permitted node type for the operation; when every node type is
excluded, the entry under the container name is left exactly as in the input
(in particular none is added). -/
theorem initializeOperationTypes_gating_spec (tm : TypeMap) (cfg : Config) :
    (hasNonExcludedNodeType (keysOf tm) tm "query" cfg = true →
      (lookupType (initializeOperationTypes tm ⟨"Query", "Mutation"⟩ cfg) "Query").isSome) ∧
    (hasNonExcludedNodeType (keysOf tm) tm "query" cfg = false →
      lookupType (initializeOperationTypes tm ⟨"Query", "Mutation"⟩ cfg) "Query" =
        lookupType tm "Query") ∧
    (hasNonExcludedNodeType (keysOf tm) tm "mutation" cfg = true →
      (lookupType (initializeOperationTypes tm ⟨"Query", "Mutation"⟩ cfg) "Mutation").isSome) ∧
    (hasNonExcludedNodeType (keysOf tm) tm "mutation" cfg = false →
      lookupType (initializeOperationTypes tm ⟨"Query", "Mutation"⟩ cfg) "Mutation" =
        lookupType tm "Mutation") ∧
    (hasNonExcludedNodeType (keysOf tm) tm "query" cfg = true ↔
      ∃ k ∈ keysOf tm, ∃ td, lookupType tm k = some td ∧ isNodeType (some td) = true ∧
        shouldAugmentType cfg "query" (tdName td) = true) ∧
    (hasNonExcludedNodeType (keysOf tm) tm "mutation" cfg = true ↔
      ∃ k ∈ keysOf tm, ∃ td, lookupType tm k = some td ∧ isNodeType (some td) = true ∧
        shouldAugmentType cfg "mutation" (tdName td) = true) := by
  have hcong : hasNonExcludedNodeType (keysOf tm) (possiblyAddObjectType tm "Query")
      "mutation" cfg = hasNonExcludedNodeType (keysOf tm) tm "mutation" cfg :=
    hasNonExcludedNodeType_congr (keysOf tm) tm (possiblyAddObjectType tm "Query")
      "mutation" cfg (keys_lookup_possiblyAddObjectType tm "Query")
  have hinit : initializeOperationTypes tm ⟨"Query", "Mutation"⟩ cfg =
      (if hasNonExcludedNodeType (keysOf tm) tm "mutation" cfg then
        possiblyAddObjectType
          (if hasNonExcludedNodeType (keysOf tm) tm "query" cfg then
            possiblyAddObjectType tm "Query" else tm) "Mutation"
      else
        (if hasNonExcludedNodeType (keysOf tm) tm "query" cfg then
          possiblyAddObjectType tm "Query" else tm)) := by
    unfold initializeOperationTypes
    by_cases hq : hasNonExcludedNodeType (keysOf tm) tm "query" cfg
    · simp [hq, hcong]
    · simp [hq]
  refine ⟨?_, ?_, ?_, ?_, hasNonExcludedNodeType_iff tm "query" cfg,
    hasNonExcludedNodeType_iff tm "mutation" cfg⟩
  · intro hq
    rw [hinit]
    simp only [hq, if_true]
    by_cases hm : hasNonExcludedNodeType (keysOf tm) tm "mutation" cfg
    · simp only [hm, if_true]
      exact lookupType_possiblyAddObjectType_isSome_preserved _ "Mutation" "Query"
        (lookupType_possiblyAddObjectType_self_isSome tm "Query")
    · simp only [hm, if_false]
      exact lookupType_possiblyAddObjectType_self_isSome tm "Query"
  · intro hq
    rw [hinit]
    simp only [hq, if_false]
    by_cases hm : hasNonExcludedNodeType (keysOf tm) tm "mutation" cfg
    · simp only [hm, if_true]
      exact lookupType_possiblyAddObjectType_ne tm "Mutation" "Query" (by decide)
    · simp [hq, hm]
  · intro hm
    rw [hinit]
    simp only [hm, if_true]
    exact lookupType_possiblyAddObjectType_self_isSome _ "Mutation"
  · intro hm
    rw [hinit]
    simp only [hm, if_false]
    by_cases hq : hasNonExcludedNodeType (keysOf tm) tm "query" cfg
    · simp only [hq, if_true]
      exact lookupType_possiblyAddObjectType_ne tm "Query" "Mutation" (by decide)
    · simp [hq, hm]

/-- C10, witness: with the only node type excluded nothing is inserted; with
it permitted the `Query` container appears. -/
theorem initializeOperationTypes_gating_witness :
    (lookupType (initializeOperationTypes fooOnlyMap ⟨"Query", "Mutation"⟩ cfgExcludeFoo)
      "Query" = lookupType fooOnlyMap "Query") ∧
    (lookupType (initializeOperationTypes fooOnlyMap ⟨"Query", "Mutation"⟩ cfgBothOps)
      "Query").isSome :=
  ⟨(initializeOperationTypes_gating_spec fooOnlyMap cfgExcludeFoo).2.1 (by decide),
   (initializeOperationTypes_gating_spec fooOnlyMap cfgBothOps).1 (by decide)⟩

/-- C4, counterexample.  With `Person` excluded from both operations, the
augmented map still contains a type keyed `_PersonFilter` (the relationship
payload type of the field literally named `filter`), the user-supplied root
query field `Person`, the user-supplied root mutation field `CreatePerson`
and the user-supplied enum `_PersonOrdering`. -/
theorem excluded_type_artifacts_persist :
    shouldAugmentType (excludeIgnoredTypes exclusionLeftoversMap cfgExcludePerson)
      "query" "Person" = false ∧
    shouldAugmentType (excludeIgnoredTypes exclusionLeftoversMap cfgExcludePerson)
      "mutation" "Person" = false ∧
    okSatisfies (augmentTypeMap exclusionLeftoversMap () cfgExcludePerson) (fun m =>
      (lookupType m "_PersonFilter").isSome &&
      ((fieldsOf ((lookupType m "Query").getD (.scalarDef ""))).getD []).any (·.name = "Person") &&
      (mutationFieldsOf m).any (·.name = "CreatePerson") &&
      isKind (lookupType m "_PersonOrdering") "EnumTypeDefinition") = true := by
  decide

/-- C4, amended.  The generators respect the exclusion policy at their own
call sites: invoked on a type excluded from the query operation, the query,
filter and ordering generators return the type map unchanged (so no root
query field, no `_<T>Filter` input and no `_<T>Ordering` enum is generated
for the excluded type), and invoked on a type excluded from the mutation
operation, the mutation and input generators return the map unchanged (no
`Create`/`Update`/`Delete` field); the counterexample shows that the map-level
statement fails because user-supplied definitions of those names persist and a
relationship payload type may coincidentally be keyed `_<T>Filter`. -/
theorem excluded_type_generators_unchanged (astNode : TypeDef) (tm : TypeMap)
    (r : Resolvers) (rts : RootTypes) (cfg : Config) (tn : String)
    (hname : tdNameE astNode = .ok tn) :
    (shouldAugmentType cfg "query" tn = false →
      possiblyAddQuery astNode tm r rts cfg = .ok tm ∧
      possiblyAddFilterInput astNode tm r cfg = .ok tm ∧
      possiblyAddOrderingEnum astNode tm r cfg = .ok tm) ∧
    (shouldAugmentType cfg "mutation" tn = false →
      possiblyAddTypeMutations astNode tm r cfg = .ok tm ∧
      possiblyAddTypeInput astNode tm r cfg = .ok tm) := by
  constructor
  · intro hq
    refine ⟨?_, ?_, ?_⟩
    · simp [possiblyAddQuery, hname, except_bind_ok, hq, pure, Except.pure]
    · simp [possiblyAddFilterInput, hname, except_bind_ok, hq, pure, Except.pure]
    · simp [possiblyAddOrderingEnum, hname, except_bind_ok, hq, pure, Except.pure]
  · intro hm
    refine ⟨?_, ?_⟩
    · simp [possiblyAddTypeMutations, hname, except_bind_ok, hm, pure, Except.pure]
    · simp [possiblyAddTypeInput, hname, except_bind_ok, hm, pure, Except.pure]

/-- C5.  For a field whose value is a relationship type with `from` equal to
`to` (reflexive), with the derivative payload name fresh: the engine
synthesizes the `_<Type><Field>Directions` wrapper exposing `from` and `to`
sub-fields selecting the payload type (list-wrapped only when the field is a
list), clears the field's own argument list, and `replaceRelationTypeValue`
rewrites the field's declared type to the bare wrapper name, not wrapped in a
list even for list fields. -/
theorem reflexive_relation_payload_spec (capF typeName : String) (tm : TypeMap)
    (field : FieldDef) (rn : String) (rdirs : List Directive)
    (rfields : List FieldDef) (N : String) (props : List FieldDef)
    (hdir : (getRelationTypeDirectiveArgs (.obj rn rdirs rfields)).isSome)
    (hscan : relationFieldScan rfields = (some N, some N, props))
    (hN : N ≠ "")
    (hfresh : lookupType tm ("_" ++ typeName ++ capF) = none) :
    lookupType (possiblyAddRelationTypeFieldPayload (.obj rn rdirs rfields) capF
        typeName tm field).1 ("_" ++ typeName ++ capF ++ "Directions") =
      some (.doc (.obj ("_" ++ typeName ++ capF ++ "Directions") rdirs
        [⟨"from", field.arguments,
          (if isListField field then GqlType.list (.named ("_" ++ typeName ++ capF))
           else GqlType.named ("_" ++ typeName ++ capF)), []⟩,
         ⟨"to", field.arguments,
          (if isListField field then GqlType.list (.named ("_" ++ typeName ++ capF))
           else GqlType.named ("_" ++ typeName ++ capF)), []⟩])) ∧
    lookupType (possiblyAddRelationTypeFieldPayload (.obj rn rdirs rfields) capF
        typeName tm field).1 ("_" ++ typeName ++ capF) =
      some (.doc (.obj ("_" ++ typeName ++ capF) rdirs (props ++ [mkF N N]))) ∧
    (possiblyAddRelationTypeFieldPayload (.obj rn rdirs rfields) capF
        typeName tm field).2 = { field with arguments := [] } ∧
    replaceRelationTypeValue N N (possiblyAddRelationTypeFieldPayload
        (.obj rn rdirs rfields) capF typeName tm field).2 capF typeName =
      { field with
        arguments := []
        type := .named ("_" ++ typeName ++ capF ++ "Directions") } := by
  obtain ⟨args, hargs⟩ := Option.isSome_iff_exists.mp hdir
  have hres : possiblyAddRelationTypeFieldPayload (.obj rn rdirs rfields) capF
      typeName tm field =
      (setKey (setKey tm ("_" ++ typeName ++ capF ++ "Directions")
        (.doc (.obj ("_" ++ typeName ++ capF ++ "Directions") rdirs
          [⟨"from", field.arguments,
            (if isListField field then GqlType.list (.named ("_" ++ typeName ++ capF))
             else GqlType.named ("_" ++ typeName ++ capF)), []⟩,
           ⟨"to", field.arguments,
            (if isListField field then GqlType.list (.named ("_" ++ typeName ++ capF))
             else GqlType.named ("_" ++ typeName ++ capF)), []⟩])))
        ("_" ++ typeName ++ capF)
        (.doc (.obj ("_" ++ typeName ++ capF) rdirs (props ++ [mkF N N]))),
       { field with arguments := [] }) := by
    unfold possiblyAddRelationTypeFieldPayload
    simp [hfresh, hargs, hscan, hN, fieldsOf, directivesOf, getFieldArgumentsFromAst]
  have hne : ("_" ++ typeName ++ capF) ++ "Directions" ≠ "_" ++ typeName ++ capF :=
    string_append_suffix_ne ("_" ++ typeName ++ capF) "Directions" (by decide)
  refine ⟨?_, ?_, ?_, ?_⟩
  · rw [hres]
    rw [lookupType_setKey_ne _ ("_" ++ typeName ++ capF)
      ("_" ++ typeName ++ capF ++ "Directions") _ hne]
    exact lookupType_setKey_self _ _ _
  · rw [hres]
    exact lookupType_setKey_self _ _ _
  · rw [hres]
  · rw [hres]
    simp [replaceRelationTypeValue]

/-- C5, witness: the reflexive `FRIEND_OF` relationship on `Person` through a
list-typed field named `friends`. -/
theorem reflexive_relation_payload_witness :
    lookupType (possiblyAddRelationTypeFieldPayload friendRelType "Friends"
        "Person" [] friendsField).1 "_PersonFriendsDirections" =
      some (.doc (.obj "_PersonFriendsDirections"
        [⟨"relation", [⟨"name", "FRIEND_OF"⟩, ⟨"from", "Person"⟩, ⟨"to", "Person"⟩]⟩]
        [⟨"from", [⟨"x", .named "Int"⟩], .list (.named "_PersonFriends"), []⟩,
         ⟨"to", [⟨"x", .named "Int"⟩], .list (.named "_PersonFriends"), []⟩])) ∧
    (possiblyAddRelationTypeFieldPayload friendRelType "Friends"
        "Person" [] friendsField).2 = { friendsField with arguments := [] } ∧
    replaceRelationTypeValue "Person" "Person" (possiblyAddRelationTypeFieldPayload
        friendRelType "Friends" "Person" [] friendsField).2 "Friends" "Person" =
      { friendsField with
        arguments := []
        type := .named "_PersonFriendsDirections" } := by
  have h := reflexive_relation_payload_spec "Friends" "Person" [] friendsField
    "FRIEND_OF" [⟨"relation", [⟨"name", "FRIEND_OF"⟩, ⟨"from", "Person"⟩, ⟨"to", "Person"⟩]⟩]
    [⟨"from", [], .named "Person", []⟩, ⟨"to", [], .named "Person", []⟩,
     ⟨"since", [], .named "Int", []⟩]
    "Person" [⟨"since", [], .named "Int", []⟩]
    (by decide) (by decide) (by decide) (by decide)
  exact ⟨by simpa [friendRelType, friendsField, isListField, typeHasList] using h.1,
    by simpa [friendRelType, friendsField] using h.2.2.1,
    by simpa [friendRelType, friendsField] using h.2.2.2⟩

/-- The root mutation field generated by one `Add`/`Remove` iteration of
`possiblyAddRelationMutationField`. -/
def relationMutationFieldFor (action typeName capF fromName toName relationName
    rn : String) (rfields : List FieldDef) (hasProps : Bool) : FieldDef :=
  ⟨action ++ typeName ++ capF,
    [⟨"from", .nonNull (.named ("_" ++ fromName ++ "Input"))⟩,
     ⟨"to", .nonNull (.named ("_" ++ toName ++ "Input"))⟩] ++
    (if hasProps && (rfields.any fun e => e.name ≠ "from" ∧ e.name ≠ "to") &&
        action = "Add" then
      [⟨"data", .nonNull (.named ("_" ++ rn ++ "Input"))⟩] else []),
    .named ("_" ++ (action ++ typeName ++ capF) ++ "Payload"),
    [⟨"MutationMeta",
      [⟨"relationship", relationName⟩, ⟨"from", fromName⟩, ⟨"to", toName⟩]⟩]⟩

/-- The payload type generated by one `Add`/`Remove` iteration of
`possiblyAddRelationMutationField`. -/
def relationMutationPayloadFor (action typeName capF fromName toName relationName :
    String) (rfields : List FieldDef) (hasProps : Bool) : TypeDef :=
  .doc (.obj ("_" ++ (action ++ typeName ++ capF) ++ "Payload")
    [⟨"relation", [⟨"name", relationName⟩, ⟨"from", fromName⟩, ⟨"to", toName⟩]⟩]
    ([mkF "from" fromName, mkF "to" toName] ++
     (if hasProps && (rfields.any fun e => e.name ≠ "from" ∧ e.name ≠ "to") &&
         action = "Add" then
        rfields.filter fun t => t.name ≠ "from" ∧ t.name ≠ "to"
      else [])))

theorem relationMutationStep_result (action typeName capF fromName toName
    relationName : String) (mutationMap : List (String × FieldDef))
    (hasProps : Bool) (cfg : Config) (tm : TypeMap)
    (rn : String) (rdirs : List Directive) (rfields : List FieldDef)
    (mname : String) (mdirs : List Directive) (mfields : List FieldDef)
    (hmut : lookupType tm "Mutation" = some (.obj mname mdirs mfields))
    (hfresh : opLookup mutationMap (action ++ typeName ++ capF) = none) :
    ∃ tm2, relationMutationStep action typeName capF fromName toName relationName
        mutationMap (.obj rn rdirs rfields) hasProps cfg tm = .ok tm2 ∧
      lookupType tm2 "Mutation" = some (.obj mname mdirs (mfields ++
        [relationMutationFieldFor action typeName capF fromName toName relationName
          rn rfields hasProps])) := by
  have hK : ("_" ++ (action ++ typeName ++ capF) ++ "Payload" : String) =
      "_" ++ ((action ++ typeName ++ capF) ++ "Payload") := String.append_assoc _ _ _
  have hKne : ¬ (("Mutation" : String) = "_" ++ (action ++ typeName ++ capF) ++ "Payload") := by
    rw [hK]
    intro h
    exact underscore_append_ne_mutation _ h.symm
  by_cases hpl : lookupType (setKey tm "Mutation" (.obj mname mdirs (mfields ++
      [relationMutationFieldFor action typeName capF fromName toName relationName
        rn rfields hasProps]))) ("_" ++ (action ++ typeName ++ capF) ++ "Payload") = none
  · refine ⟨setKey (setKey tm "Mutation" (.obj mname mdirs (mfields ++
      [relationMutationFieldFor action typeName capF fromName toName relationName
        rn rfields hasProps]))) ("_" ++ (action ++ typeName ++ capF) ++ "Payload")
      (relationMutationPayloadFor action typeName capF fromName toName relationName
        rfields hasProps), ?_, ?_⟩
    · unfold relationMutationStep
      simp [relationMutationFieldFor] at hpl
      simp [hfresh, tdNameE, tdNameOpt, fieldsOf, pushFieldOnKey, hmut, withFields,
        possiblyAddScopeDirective, except_bind_ok, pure, Except.pure, hpl,
        relationMutationFieldFor, relationMutationPayloadFor,
        getRelationMutationPayloadFieldsFromAst]
    · rw [lookupType_setKey_ne _ _ _ _ hKne]
      exact lookupType_setKey_self _ _ _
  · refine ⟨setKey tm "Mutation" (.obj mname mdirs (mfields ++
      [relationMutationFieldFor action typeName capF fromName toName relationName
        rn rfields hasProps])), ?_, ?_⟩
    · unfold relationMutationStep
      simp [relationMutationFieldFor] at hpl
      simp [hfresh, tdNameE, tdNameOpt, fieldsOf, pushFieldOnKey, hmut, withFields,
        possiblyAddScopeDirective, except_bind_ok, pure, Except.pure, hpl,
        relationMutationFieldFor]
    · exact lookupType_setKey_self _ _ _

theorem possiblyAddRelationMutationField_result (typeName capF fromName toName
    relationName : String) (mutationMap : List (String × FieldDef)) (tm : TypeMap)
    (hasProps : Bool) (cfg : Config)
    (rn : String) (rdirs : List Directive) (rfields : List FieldDef)
    (mname : String) (mdirs : List Directive) (mfields : List FieldDef)
    (hmut : lookupType tm "Mutation" = some (.obj mname mdirs mfields))
    (hAdd : opLookup mutationMap ("Add" ++ typeName ++ capF) = none)
    (hRem : opLookup mutationMap ("Remove" ++ typeName ++ capF) = none) :
    ∃ tm2, possiblyAddRelationMutationField typeName capF fromName toName mutationMap
        tm relationName (.obj rn rdirs rfields) hasProps cfg = .ok tm2 ∧
      lookupType tm2 "Mutation" = some (.obj mname mdirs (mfields ++
        [relationMutationFieldFor "Add" typeName capF fromName toName relationName
          rn rfields hasProps,
         relationMutationFieldFor "Remove" typeName capF fromName toName relationName
          rn rfields hasProps])) := by
  obtain ⟨tm1, h1, hl1⟩ := relationMutationStep_result "Add" typeName capF fromName
    toName relationName mutationMap hasProps cfg tm rn rdirs rfields mname mdirs
    mfields hmut hAdd
  obtain ⟨tm2, h2, hl2⟩ := relationMutationStep_result "Remove" typeName capF fromName
    toName relationName mutationMap hasProps cfg tm1 rn rdirs rfields mname mdirs
    (mfields ++ [relationMutationFieldFor "Add" typeName capF fromName toName
      relationName rn rfields hasProps]) hl1 hRem
  refine ⟨tm2, ?_, ?_⟩
  · simp [possiblyAddRelationMutationField, h1, h2, except_bind_ok]
  · rw [hl2]
    simp

/-- C7.  Every generated relationship mutation pair: the `Add` field carries a
`data` argument exactly when the call requests relationship properties
(`relationHasProps`, which `handleRelationTypeDirective` passes as true) and
the relationship type declares at least one field other than `from`/`to`; the
`Remove` field never carries a `data` argument (its arguments are exactly
`from` and `to`), for either value of `relationHasProps`. -/
theorem relation_mutation_data_argument_spec (typeName capF fromName toName
    relationName : String) (mutationMap : List (String × FieldDef)) (tm : TypeMap)
    (hasProps : Bool) (cfg : Config)
    (rn : String) (rdirs : List Directive) (rfields : List FieldDef)
    (mname : String) (mdirs : List Directive) (mfields : List FieldDef)
    (hmut : lookupType tm "Mutation" = some (.obj mname mdirs mfields))
    (hAdd : opLookup mutationMap ("Add" ++ typeName ++ capF) = none)
    (hRem : opLookup mutationMap ("Remove" ++ typeName ++ capF) = none) :
    ∃ tm2 addF removeF,
      possiblyAddRelationMutationField typeName capF fromName toName mutationMap
        tm relationName (.obj rn rdirs rfields) hasProps cfg = .ok tm2 ∧
      lookupType tm2 "Mutation" = some (.obj mname mdirs (mfields ++ [addF, removeF])) ∧
      (addF.arguments.any (·.name = "data") = true ↔
        (hasProps = true ∧ ∃ f ∈ rfields, f.name ≠ "from" ∧ f.name ≠ "to")) ∧
      removeF.arguments.map (·.name) = ["from", "to"] := by
  obtain ⟨tm2, hok, hl⟩ := possiblyAddRelationMutationField_result typeName capF
    fromName toName relationName mutationMap tm hasProps cfg rn rdirs rfields
    mname mdirs mfields hmut hAdd hRem
  refine ⟨tm2, _, _, hok, hl, ?_, ?_⟩
  · by_cases hc : hasProps = true ∧ ∃ f ∈ rfields, f.name ≠ "from" ∧ f.name ≠ "to"
    · simp [relationMutationFieldFor, hc]
    · simp only [relationMutationFieldFor]
      simp [hc]
  · simp [relationMutationFieldFor]

/-- C7, witness: `ACTED_IN` from `Person` to `Movie` with a `roles` property
field, requested with relationship properties. -/
theorem relation_mutation_data_argument_witness :
    ∃ tm2 addF removeF,
      possiblyAddRelationMutationField "Person" "Movies" "Person" "Movie" []
        mutationSeedMap "ACTED_IN"
        (.obj "ACTED_IN"
          [⟨"relation", [⟨"name", "ACTED_IN"⟩, ⟨"from", "Person"⟩, ⟨"to", "Movie"⟩]⟩]
          [⟨"from", [], .named "Person", []⟩, ⟨"to", [], .named "Movie", []⟩,
           ⟨"roles", [], .list (.named "String"), []⟩]) true cfgBothOps = .ok tm2 ∧
      lookupType tm2 "Mutation" = some (.obj "Mutation" [] ([] ++ [addF, removeF])) ∧
      (addF.arguments.any (·.name = "data") = true ↔
        (true = true ∧ ∃ f ∈ [(⟨"from", [], .named "Person", []⟩ : FieldDef),
          ⟨"to", [], .named "Movie", []⟩, ⟨"roles", [], .list (.named "String"), []⟩],
          f.name ≠ "from" ∧ f.name ≠ "to")) ∧
      removeF.arguments.map (·.name) = ["from", "to"] :=
  relation_mutation_data_argument_spec "Person" "Movies" "Person" "Movie"
    "ACTED_IN" [] mutationSeedMap true cfgBothOps "ACTED_IN"
    [⟨"relation", [⟨"name", "ACTED_IN"⟩, ⟨"from", "Person"⟩, ⟨"to", "Movie"⟩]⟩]
    [⟨"from", [], .named "Person", []⟩, ⟨"to", [], .named "Movie", []⟩,
     ⟨"roles", [], .list (.named "String"), []⟩]
    "Mutation" [] [] (by decide) (by decide) (by decide)

/-- C8.  Both generated relationship-mutation fields carry, whatever the
notation that produced the call (relationship type: `relationHasProps = true`;
field-level directive: `relationHasProps = false`), exactly one directive
named `MutationMeta` whose arguments are exactly `relationship` (the
relationship name), `from` and `to` (the endpoint type names). -/
theorem relation_mutation_meta_directive_spec (typeName capF fromName toName
    relationName : String) (mutationMap : List (String × FieldDef)) (tm : TypeMap)
    (hasProps : Bool) (cfg : Config)
    (rn : String) (rdirs : List Directive) (rfields : List FieldDef)
    (mname : String) (mdirs : List Directive) (mfields : List FieldDef)
    (hmut : lookupType tm "Mutation" = some (.obj mname mdirs mfields))
    (hAdd : opLookup mutationMap ("Add" ++ typeName ++ capF) = none)
    (hRem : opLookup mutationMap ("Remove" ++ typeName ++ capF) = none) :
    ∃ tm2 addF removeF,
      possiblyAddRelationMutationField typeName capF fromName toName mutationMap
        tm relationName (.obj rn rdirs rfields) hasProps cfg = .ok tm2 ∧
      lookupType tm2 "Mutation" = some (.obj mname mdirs (mfields ++ [addF, removeF])) ∧
      addF.name = "Add" ++ typeName ++ capF ∧
      removeF.name = "Remove" ++ typeName ++ capF ∧
      addF.directives = [⟨"MutationMeta",
        [⟨"relationship", relationName⟩, ⟨"from", fromName⟩, ⟨"to", toName⟩]⟩] ∧
      removeF.directives = [⟨"MutationMeta",
        [⟨"relationship", relationName⟩, ⟨"from", fromName⟩, ⟨"to", toName⟩]⟩] := by
  obtain ⟨tm2, hok, hl⟩ := possiblyAddRelationMutationField_result typeName capF
    fromName toName relationName mutationMap tm hasProps cfg rn rdirs rfields
    mname mdirs mfields hmut hAdd hRem
  exact ⟨tm2, _, _, hok, hl, rfl, rfl, rfl, rfl⟩

/-- C8, witness: a field-level-directive flavoured call (no relationship
properties) still carries the exact `MutationMeta` directive. -/
theorem relation_mutation_meta_directive_witness :
    ∃ tm2 addF removeF,
      possiblyAddRelationMutationField "Person" "Rated" "Person" "Movie" []
        mutationSeedMap "RATED"
        (.obj "Movie" [] [⟨"mid", [], .nonNull (.named "ID"), []⟩]) false
        cfgBothOps = .ok tm2 ∧
      lookupType tm2 "Mutation" = some (.obj "Mutation" [] ([] ++ [addF, removeF])) ∧
      addF.name = "Add" ++ "Person" ++ "Rated" ∧
      removeF.name = "Remove" ++ "Person" ++ "Rated" ∧
      addF.directives = [⟨"MutationMeta",
        [⟨"relationship", "RATED"⟩, ⟨"from", "Person"⟩, ⟨"to", "Movie"⟩]⟩] ∧
      removeF.directives = [⟨"MutationMeta",
        [⟨"relationship", "RATED"⟩, ⟨"from", "Person"⟩, ⟨"to", "Movie"⟩]⟩] :=
  relation_mutation_meta_directive_spec "Person" "Rated" "Person" "Movie" "RATED"
    [] mutationSeedMap false cfgBothOps "Movie" []
    [⟨"mid", [], .nonNull (.named "ID"), []⟩]
    "Mutation" [] [] (by decide) (by decide) (by decide)

/-- C4, witness: the generators leave the map untouched for the excluded type. -/
theorem excluded_type_generators_unchanged_witness :
    possiblyAddQuery fooType fooOnlyMap () ⟨"Query", "Mutation"⟩ cfgExcludeFoo
      = .ok fooOnlyMap ∧
    possiblyAddFilterInput fooType fooOnlyMap () cfgExcludeFoo = .ok fooOnlyMap ∧
    possiblyAddOrderingEnum fooType fooOnlyMap () cfgExcludeFoo = .ok fooOnlyMap ∧
    possiblyAddTypeMutations fooType fooOnlyMap () cfgExcludeFoo = .ok fooOnlyMap ∧
    possiblyAddTypeInput fooType fooOnlyMap () cfgExcludeFoo = .ok fooOnlyMap := by
  have h := excluded_type_generators_unchanged fooType fooOnlyMap ()
    ⟨"Query", "Mutation"⟩ cfgExcludeFoo "Foo" (by decide)
  exact ⟨(h.1 (by decide)).1, (h.1 (by decide)).2.1, (h.1 (by decide)).2.2,
    (h.2 (by decide)).1, (h.2 (by decide)).2⟩

end NeoAugment
